import Mathlib

set_option maxRecDepth 8192

/-!
Verification of the geodiff-action diff engine (src/geodiff.py, src/main.py).

The embedding models JSON-parsed Python values as the inductive `JVal`
(numeric values are modelled as integers; the documents exercised by the
claims carry no floating point).  Python dictionaries obtained from
`json.load` are association lists with pairwise distinct keys; dictionary
update (`dictSet`) keeps the position of an existing key, matching CPython
insertion-order semantics.
-/

inductive JVal where
  | null : JVal
  | bool : Bool → JVal
  | num : Int → JVal
  | str : String → JVal
  | arr : List JVal → JVal
  | obj : List (String × JVal) → JVal

abbrev Dict := List (String × JVal)

/-- Dictionary lookup (`d[k]` / `d.get(k)` on a duplicate-free mapping). -/
def dictGet {α : Type} : List (String × α) → String → Option α
  | [], _ => none
  | (k, v) :: rest, key => if k = key then some v else dictGet rest key

/-- Dictionary update `d[k] = v`: replaces in place, else appends (CPython
insertion-order semantics). -/
def dictSet {α : Type} : List (String × α) → String → α → List (String × α)
  | [], key, v => [(key, v)]
  | (k, w) :: rest, key, v =>
    if k = key then (key, v) :: rest else (k, w) :: dictSet rest key v

def dictKeys {α : Type} (m : List (String × α)) : List String := m.map Prod.fst

/-- All keys of `xs` occur in `ys`. -/
def keysSubB (xs ys : List (String × JVal)) : Bool :=
  xs.all (fun p => (dictGet ys p.1).isSome)

-- Python `==` on JSON-loaded values.  Mirrors CPython: `True == 1`, and
-- dict comparison is key-set plus pointwise value equality (dictionaries
-- from `json.load` never hold duplicate keys).
mutual
def pyEq (a b : JVal) : Bool :=
  match a, b with
  | .null, .null => true
  | .bool x, .bool y => x == y
  | .bool x, .num n => (if x then (1 : Int) else 0) == n
  | .num n, .bool y => n == (if y then (1 : Int) else 0)
  | .num x, .num y => x == y
  | .str x, .str y => x == y
  | .arr xs, .arr ys => pyEqList xs ys
  | .obj xs, .obj ys => pyEqObjSub xs ys && keysSubB ys xs
  | _, _ => false
def pyEqList (xs ys : List JVal) : Bool :=
  match xs, ys with
  | [], [] => true
  | x :: xs1, y :: ys1 => pyEq x y && pyEqList xs1 ys1
  | _, _ => false
def pyEqObjSub (xs ys : List (String × JVal)) : Bool :=
  match xs with
  | [] => true
  | (k, v) :: rest =>
    (match dictGet ys k with
     | some w => pyEq v w
     | none => false) && pyEqObjSub rest ys
end

/-- Python `==` between two feature dictionaries (`base_feature == compare_feature`). -/
def pyDictEq (f g : Dict) : Bool := pyEqObjSub f g && keysSubB g f

/-- Pairwise distinct keys of an association list, as a Bool. -/
def keysNodupB : List (String × JVal) → Bool
  | [] => true
  | (k, _) :: rest => !((rest.map Prod.fst).contains k) && keysNodupB rest

-- Well-formedness of a JSON-loaded value: every object (at any depth) has
-- pairwise distinct keys.  Every value produced by `json.load` satisfies it.
mutual
def wfJVal : JVal → Bool
  | .null => true
  | .bool _ => true
  | .num _ => true
  | .str _ => true
  | .arr xs => wfJValList xs
  | .obj xs => keysNodupB xs && wfJValObj xs
def wfJValList : List JVal → Bool
  | [] => true
  | x :: xs => wfJVal x && wfJValList xs
def wfJValObj : List (String × JVal) → Bool
  | [] => true
  | (_, v) :: rest => wfJVal v && wfJValObj rest
end

-- Python `repr` of a JSON-loaded value (containers only; the claims never
-- inspect the repr of a container, so string quoting is not escaped).
mutual
def pyRepr : JVal → String
  | .null => "None"
  | .bool b => if b then "True" else "False"
  | .num n => toString n
  | .str s => "\x27" ++ s ++ "\x27"
  | .arr xs => "[" ++ String.intercalate ", " (pyReprList xs) ++ "]"
  | .obj xs => "\x7b" ++ String.intercalate ", " (pyReprObj xs) ++ "\x7d"
def pyReprList : List JVal → List String
  | [] => []
  | x :: xs => pyRepr x :: pyReprList xs
def pyReprObj : List (String × JVal) → List String
  | [] => []
  | (k, v) :: rest => ("\x27" ++ k ++ "\x27: " ++ pyRepr v) :: pyReprObj rest
end

/-- Python `str()` of a JSON-loaded value. -/
def pyStr : JVal → String
  | .str s => s
  | v => pyRepr v

/-! ## Identity resolution (src/geodiff.py, `get_feature_id`) -/

/-- The fixed property-key priority order scanned by `get_feature_id`. -/
def featureIdKeys : List String := ["id", "ID", "fid", "FID", "OBJECTID", "name", "NAME"]

/-- First key of `ks` present in `props`, returning its value. -/
def scanKeys (props : Dict) : List String → Option JVal
  | [] => none
  | k :: ks =>
    match dictGet props k with
    | some v => some v
    | none => scanKeys props ks

/-- The function `get_feature_id(feature, index)`.  The Python guard `if properties:` merely
skips the scan for a falsy `properties` value; scanning an empty mapping
finds no key, so for mapping-typed `properties` (the Feature data model) the
guard never changes the result.  A non-mapping `properties` value contributes
no recognized key. -/
def get_feature_id (feature : Dict) (index : Nat) : String :=
  match dictGet feature "id" with
  | some v => pyStr v
  | none =>
    match (dictGet feature "properties").getD (.obj []) with
    | .obj props =>
      match scanKeys props featureIdKeys with
      | some v => pyStr v
      | none => "feature_" ++ toString index
    | _ => "feature_" ++ toString index

/-! ## Set comparison engine (src/geodiff.py, `compare_features`) -/

/-- The dict comprehension
`{get_feature_id(f, i): f for i, f in enumerate(features)}`, as an indexed
left fold: a later feature with the same identity overwrites an earlier one. -/
def buildMapFrom (i : Nat) (fs : List Dict) (m : List (String × Dict)) :
    List (String × Dict) :=
  match fs with
  | [] => m
  | f :: rest => buildMapFrom (i + 1) rest (dictSet m (get_feature_id f i) f)

def buildMap (fs : List Dict) : List (String × Dict) := buildMapFrom 0 fs []

/-- Last feature of `fs` (indexed from `i`) whose resolved identity is `k`. -/
def lastMatch (i : Nat) (fs : List Dict) (k : String) : Option Dict :=
  match fs with
  | [] => none
  | f :: rest =>
    match lastMatch (i + 1) rest k with
    | some g => some g
    | none => if get_feature_id f i = k then some f else none

/-- One entry of the `modified` list: the dict
`{"id": fid, "base": base_feature, "compare": compare_feature}`. -/
structure ModEntry where
  id : String
  base : Dict
  compare : Dict

/-- The four-key dict returned by `compare_features`. -/
structure ComparisonResult where
  added : List Dict
  removed : List Dict
  modified : List ModEntry
  unchanged : List Dict

/-- The identities present on both sides, paired with both features
(the loop `for fid in common_ids`, enumerated in base-map order; the source
iterates an unordered set, whose order is unspecified). -/
def commonPairs (b c : List Dict) : List (String × Dict × Dict) :=
  (buildMap b).filterMap
    (fun p => (dictGet (buildMap c) p.1).map (fun cf => (p.1, p.2, cf)))

/-- The function `compare_features(base_features, compare_features)`.  The source
enumerates the unordered sets `added_ids`/`removed_ids`/`common_ids`; the
embedding enumerates each in insertion order of the corresponding map, one
consistent enumeration of the same sets.  The single common-ids loop is
split into its two disjoint outcomes. -/
def compare_features (base_features compare_features_list : List Dict) :
    ComparisonResult :=
  let base_map := buildMap base_features
  let compare_map := buildMap compare_features_list
  { added :=
      (compare_map.filter (fun p => !((dictKeys base_map).contains p.1))).map Prod.snd
    removed :=
      (base_map.filter (fun p => !((dictKeys compare_map).contains p.1))).map Prod.snd
    modified :=
      (commonPairs base_features compare_features_list).filterMap
        (fun t => if pyDictEq t.2.1 t.2.2 then none else some ⟨t.1, t.2.1, t.2.2⟩)
    unchanged :=
      (commonPairs base_features compare_features_list).filterMap
        (fun t => if pyDictEq t.2.1 t.2.2 then some t.2.1 else none) }

/-! ## Identity-set views used by the partition claim -/

def sideIds (fs : List Dict) : List String := dictKeys (buildMap fs)

def addedIds (b c : List Dict) : List String :=
  (sideIds c).filter (fun k => !((sideIds b).contains k))

def removedIds (b c : List Dict) : List String :=
  (sideIds b).filter (fun k => !((sideIds c).contains k))

def commonIds (b c : List Dict) : List String :=
  (sideIds b).filter (fun k => (sideIds c).contains k)

def modifiedIds (b c : List Dict) : List String :=
  (commonIds b c).filter (fun k =>
    match dictGet (buildMap b) k, dictGet (buildMap c) k with
    | some bf, some cf => !(pyDictEq bf cf)
    | _, _ => false)

def unchangedIds (b c : List Dict) : List String :=
  (commonIds b c).filter (fun k =>
    match dictGet (buildMap b) k, dictGet (buildMap c) k with
    | some bf, some cf => pyDictEq bf cf
    | _, _ => false)

/-! ## Loader (src/geodiff.py, `load_geojson`) and diff builder (`compute_diff`) -/

/-- The distinct `GeoDiffError` raise sites of src/geodiff.py (one Python
exception class; the constructors record which message was raised). -/
inductive GeoDiffError where
  | notFound (path : String)
  | unsupportedFormat (suffix : String)
  | malformedInput (path : String)
  | invalidRootNotObject
  | invalidMissingType
  | typeMismatch (base_type compare_type : JVal)
  | unsupportedType (t : JVal)

/-- ASCII lowering, modelling Python `str.lower()` on the ASCII paths the
claims quantify over. -/
def pyLower (s : String) : String := String.mk (s.data.map Char.toLower)

/-- Split a character list on `/` (POSIX path separator). -/
def splitSlash : List Char → List Char → List (List Char)
  | [], acc => [acc.reverse]
  | c :: rest, acc =>
    if c = '/' then acc.reverse :: splitSlash rest []
    else splitSlash rest (c :: acc)

/-- The final path component (`PurePath.name`, POSIX). -/
def pathName (path : String) : List Char :=
  ((splitSlash path.data []).filter (fun c => c ≠ [])).getLastD []

/-- The `pathlib.PurePath.suffix` rule (POSIX): the extension of the final path
component; empty when the final component has no dot, starts with its only
dot, or ends in the dot. -/
def pySuffix (path : String) : String :=
  let cs := pathName path
  if cs.contains '.' then
    let ext := cs.reverse.takeWhile (fun ch => ch ≠ '.')
    if ext.length = 0 ∨ ext.length + 1 = cs.length then ""
    else String.mk ('.' :: ext.reverse)
  else ""

/-- The content checks of `load_geojson` after the filesystem checks:
`parsed` is the outcome of `json.load` (`none` = parse error). -/
def parse_stage (path : String) (parsed : Option JVal) : Except GeoDiffError Dict :=
  match parsed with
  | none => .error (.malformedInput path)
  | some (.obj d) =>
    if (d.map Prod.fst).contains "type" then .ok d
    else .error .invalidMissingType
  | some _ => .error .invalidRootNotObject

/-- The loader `load_geojson(file_path)`, with the filesystem abstracted to whether the
path exists and what its content parses to. -/
def load_geojson (path : String) (fsExists : Bool) (parsed : Option JVal) :
    Except GeoDiffError Dict :=
  if !fsExists then .error (.notFound path)
  else if !(pyLower (pySuffix path) == ".geojson") then
    .error (.unsupportedFormat (pySuffix path))
  else parse_stage path parsed

/-- The lookup `data.get("features", [])`, for documents whose `features` member, when
present, is an array of Feature objects (the type `compare_features`
declares for its inputs: `list[dict]`). -/
def featuresOf (d : Dict) : List Dict :=
  match dictGet d "features" with
  | some (.arr fs) =>
    fs.filterMap (fun v => match v with | .obj o => some o | _ => none)
  | _ => []

/-- The feature sequence a supported document contributes: a
`FeatureCollection` contributes its feature list, anything else (in
particular a `Feature`, the only other type reaching this point) contributes
the one-element list holding the document itself. -/
def docFeatureList (d : Dict) : List Dict :=
  match dictGet d "type" with
  | some (.str "FeatureCollection") => featuresOf d
  | _ => [d]

def modEntryToJVal (m : ModEntry) : JVal :=
  .obj [("id", .str m.id), ("base", .obj m.base), ("compare", .obj m.compare)]

/-- The dict literal `compute_diff` returns (lines 157-171 of geodiff.py),
given the normalized feature sequences. -/
def buildDiffResult (base_file compare_file : String) (t : JVal)
    (bfs cfs : List Dict) : Dict :=
  let comparison := compare_features bfs cfs
  let has_changes :=
    !comparison.added.isEmpty || !comparison.removed.isEmpty ||
      !comparison.modified.isEmpty
  [("base_file", .str base_file),
   ("compare_file", .str compare_file),
   ("type", t),
   ("summary", .obj
     [("added_count", .num comparison.added.length),
      ("removed_count", .num comparison.removed.length),
      ("modified_count", .num comparison.modified.length),
      ("unchanged_count", .num comparison.unchanged.length),
      ("total_base", .num bfs.length),
      ("total_compare", .num cfs.length)]),
   ("changes", .obj
     [("added", .arr (comparison.added.map .obj)),
      ("removed", .arr (comparison.removed.map .obj)),
      ("modified", .arr (comparison.modified.map modEntryToJVal)),
      ("unchanged", .arr (comparison.unchanged.map .obj))]),
   ("has_changes", .bool has_changes)]

/-- The function `compute_diff` after both loads succeeded (`base_data`/`compare_data`
are the loaded documents).  `data.get("type")` yields Python `None` both for
a missing key and for a JSON `null` value, modelled by `.getD .null`. -/
def compute_diff_docs (base_file compare_file : String)
    (base_data compare_data : Dict) : Except GeoDiffError Dict :=
  let base_type := (dictGet base_data "type").getD .null
  let compare_type := (dictGet compare_data "type").getD .null
  if !(pyEq base_type compare_type) then
    .error (.typeMismatch base_type compare_type)
  else if pyEq base_type (.str "FeatureCollection") then
    .ok (buildDiffResult base_file compare_file base_type
      (featuresOf base_data) (featuresOf compare_data))
  else if pyEq base_type (.str "Feature") then
    .ok (buildDiffResult base_file compare_file base_type
      [base_data] [compare_data])
  else
    .error (.unsupportedType base_type)

/-! ## Output formatter (src/geodiff.py, `format_output`) -/

/-- Python runtime exceptions `format_output` can raise (it performs no
error handling of its own). -/
inductive PyError where
  | keyError (key : String)
  | typeError (msg : String)
  | attributeError (msg : String)

def getKey (d : Dict) (k : String) : Except PyError JVal :=
  match dictGet d k with
  | some v => .ok v
  | none => .error (.keyError k)

/-- Subscripting a value that must be a mapping: any non-mapping raises. -/
def asObj (v : JVal) : Except PyError Dict :=
  match v with
  | .obj d => .ok d
  | _ => .error (.typeError "value is not a mapping")

/-- Iterating a value as the list the result builders store there; a
non-list value never arises from either result builder. -/
def asArr (v : JVal) : Except PyError (List JVal) :=
  match v with
  | .arr l => .ok l
  | _ => .error (.typeError "value is not a list")

def jsonEscape (s : String) : String :=
  s.foldl (fun acc c =>
    acc ++ (if c = '"' then "\\\"" else if c = '\\' then "\\\\"
      else if c = '\n' then "\\n" else if c = '\t' then "\\t"
      else if c = '\r' then "\\r" else String.mk [c])) ""

def jsonPad (lvl : Nat) : String := String.mk (List.replicate (2 * lvl) ' ')

-- `json.dumps(value, indent=2)`.  (`ensure_ascii` escaping of non-ASCII
-- text is not reproduced; no claim inspects the serialized text.)
mutual
def jsonDumpsV (lvl : Nat) : JVal → String
  | .null => "null"
  | .bool b => if b then "true" else "false"
  | .num n => toString n
  | .str s => "\"" ++ jsonEscape s ++ "\""
  | .arr [] => "[]"
  | .arr (x :: xs) =>
    "[\n" ++ String.intercalate ",\n" (jsonDumpsList (lvl + 1) (x :: xs)) ++
      "\n" ++ jsonPad lvl ++ "]"
  | .obj [] => "\x7b\x7d"
  | .obj (e :: es) =>
    "\x7b\n" ++ String.intercalate ",\n" (jsonDumpsObj (lvl + 1) (e :: es)) ++
      "\n" ++ jsonPad lvl ++ "\x7d"
def jsonDumpsList (lvl : Nat) : List JVal → List String
  | [] => []
  | x :: xs => (jsonPad lvl ++ jsonDumpsV lvl x) :: jsonDumpsList lvl xs
def jsonDumpsObj (lvl : Nat) : List (String × JVal) → List String
  | [] => []
  | (k, v) :: rest =>
    (jsonPad lvl ++ "\"" ++ jsonEscape k ++ "\": " ++ jsonDumpsV lvl v) ::
      jsonDumpsObj lvl rest
end

def jsonDumps (v : JVal) : String := jsonDumpsV 0 v

/-- The `summary` branch of `format_output` (lines 185-196): the dict
subscripts, in source evaluation order, then the fixed-layout text. -/
def format_summary (diff_result : Dict) : Except PyError String := do
  let summaryV ← getKey diff_result "summary"
  let bf ← getKey diff_result "base_file"
  let cf ← getKey diff_result "compare_file"
  let summary ← asObj summaryV
  let a ← getKey summary "added_count"
  let r ← getKey summary "removed_count"
  let m ← getKey summary "modified_count"
  let u ← getKey summary "unchanged_count"
  let tb ← getKey summary "total_base"
  let tc ← getKey summary "total_compare"
  let lines :=
    ["GeoDiff Summary: " ++ pyStr bf ++ " vs " ++ pyStr cf,
     "  Added:     " ++ pyStr a,
     "  Removed:   " ++ pyStr r,
     "  Modified:  " ++ pyStr m,
     "  Unchanged: " ++ pyStr u,
     "  Total (base):    " ++ pyStr tb,
     "  Total (compare): " ++ pyStr tc]
  return String.intercalate "\n" lines

/-- The tagging step `f = feature.copy(); f.setdefault("properties", (empty))["_geodiff_status"] = status`.

The copy is SHALLOW: when the feature already has a `properties` mapping,
`setdefault` returns that same mapping object — shared between the copy and
the original — and the status assignment mutates it in place.  The result is
`(rendered copy, post-state of the original feature)`.  Only when
`properties` is absent does the copy get a fresh dict, leaving the original
untouched.  A present non-mapping `properties` raises on item assignment;
a non-dict feature raises on `.copy()`. -/
def tagFeature (status : String) (v : JVal) : Except PyError (JVal × JVal) :=
  match v with
  | .obj f =>
    match dictGet f "properties" with
    | some (.obj props) =>
      let props2 := dictSet props "_geodiff_status" (.str status)
      .ok (.obj (dictSet f "properties" (.obj props2)),
           .obj (dictSet f "properties" (.obj props2)))
    | some _ => .error (.typeError "item assignment on non-mapping properties")
    | none =>
      .ok (.obj (dictSet f "properties" (.obj [("_geodiff_status", .str status)])),
           .obj f)
  | _ => .error (.attributeError "copy")

/-- The `for feature in changes[...]` tagging loops, threading the
post-states of the originals. -/
def tagAll (status : String) : List JVal → Except PyError (List JVal × List JVal)
  | [] => .ok ([], [])
  | v :: rest => do
    let (r1, p1) ← tagFeature status v
    let (rs, ps) ← tagAll status rest
    return (r1 :: rs, p1 :: ps)

/-- The `for mod in changes["modified"]` loop: `mod["compare"]` is copied
and tagged; the post-state of the entry carries the mutated compare-side
feature. -/
def tagAllMod : List JVal → Except PyError (List JVal × List JVal)
  | [] => .ok ([], [])
  | m :: rest => do
    let mObj ← asObj m
    let cf ← getKey mObj "compare"
    let (r1, p1) ← tagFeature "modified" cf
    let (rs, ps) ← tagAllMod rest
    return (r1 :: rs, .obj (dictSet mObj "compare" p1) :: ps)

/-- The `geojson` branch of `format_output` (lines 198-223): returns the
`geojson_output` object of line 217 together with the post-state of the
input dict (the shallow-copy tagging mutates features reachable from it).
On an error the partially mutated state is discarded (no claim observes it). -/
def format_geojson_obj (diff_result : Dict) : Except PyError (JVal × Dict) := do
  let changesV ← getKey diff_result "changes"
  let changes ← asObj changesV
  let addedL ← asArr (← getKey changes "added")
  let (addedR, addedP) ← tagAll "added" addedL
  let removedL ← asArr (← getKey changes "removed")
  let (removedR, removedP) ← tagAll "removed" removedL
  let modL ← asArr (← getKey changes "modified")
  let (modR, modP) ← tagAllMod modL
  let summaryV ← getKey diff_result "summary"
  let post := dictSet diff_result "changes" (.obj
    (dictSet (dictSet (dictSet changes "added" (.arr addedP))
      "removed" (.arr removedP)) "modified" (.arr modP)))
  return (.obj
    [("type", .str "FeatureCollection"),
     ("features", .arr (addedR ++ removedR ++ modR)),
     ("properties", .obj [("geodiff_summary", summaryV)])], post)

/-- The formatter `format_output(diff_result, output_format)`, returning the formatted
string together with the post-state of the argument. -/
def format_output (diff_result : Dict) (output_format : String) :
    Except PyError (String × Dict) :=
  if output_format == "summary" then do
    let s ← format_summary diff_result
    return (s, diff_result)
  else if output_format == "geojson" then do
    let (o, post) ← format_geojson_obj diff_result
    return (jsonDumps o, post)
  else
    .ok (jsonDumps (.obj diff_result), diff_result)

/-- The tabular-container `diff_result` built by src/main.py lines 126-138
for a file that is new in this commit (summary keyed
`total_changes/inserts/updates/deletes`, changes payload the verbatim
changeset list). -/
def newFileDiffResult (base_file : String) : Dict :=
  [("base_file", .str "(new file)"),
   ("compare_file", .str base_file),
   ("has_changes", .bool true),
   ("summary", .obj
     [("total_changes", .num 0),
      ("inserts", .num 0),
      ("updates", .num 0),
      ("deletes", .num 0)]),
   ("changes", .obj [("geodiff", .arr [])]),
   ("note", .str "File is new in this commit")]

/-! ## Association-list lemmas -/

theorem contains_iff_mem {l : List String} {k : String} :
    l.contains k = true ↔ k ∈ l := by
  unfold List.contains
  exact List.elem_iff

theorem dictGet_dictSet_self {α : Type} (m : List (String × α)) (k : String) (v : α) :
    dictGet (dictSet m k v) k = some v := by
  induction m with
  | nil => simp [dictSet, dictGet]
  | cons p rest ih =>
    obtain ⟨k1, v1⟩ := p
    by_cases h : k1 = k
    · subst h
      simp [dictSet, dictGet]
    · simp [dictSet, dictGet, h, ih]

theorem dictGet_dictSet_ne {α : Type} (m : List (String × α)) (k k' : String) (v : α)
    (h : k' ≠ k) : dictGet (dictSet m k v) k' = dictGet m k' := by
  induction m with
  | nil => simp [dictSet, dictGet, Ne.symm h]
  | cons p rest ih =>
    obtain ⟨k1, v1⟩ := p
    by_cases h1 : k1 = k
    · subst h1
      simp [dictSet, dictGet, Ne.symm h]
    · simp only [dictSet, if_neg h1, dictGet]
      by_cases h2 : k1 = k'
      · simp [h2]
      · simp [h2, ih]

theorem mem_dictKeys {α : Type} {m : List (String × α)} {k : String} :
    k ∈ dictKeys m ↔ ∃ v, (k, v) ∈ m := by
  constructor
  · intro h
    obtain ⟨⟨k1, v1⟩, hm, he⟩ := List.mem_map.mp h
    exact ⟨v1, by simpa [← he] using hm⟩
  · intro ⟨v, hv⟩
    exact List.mem_map.mpr ⟨(k, v), hv, rfl⟩

theorem dictKeys_dictSet_mem {α : Type} (m : List (String × α)) (k : String) (v : α)
    (h : k ∈ dictKeys m) : dictKeys (dictSet m k v) = dictKeys m := by
  induction m with
  | nil => simp [dictKeys] at h
  | cons p rest ih =>
    obtain ⟨k1, v1⟩ := p
    by_cases h1 : k1 = k
    · subst h1
      simp [dictSet, dictKeys]
    · have h2 : k ∈ dictKeys rest := by
        rcases List.mem_cons.mp (show k ∈ k1 :: dictKeys rest from h) with h3 | h3
        · exact absurd h3.symm h1
        · exact h3
      simp only [dictSet, if_neg h1, dictKeys, List.map_cons]
      exact congrArg (k1 :: ·) (ih h2)

theorem dictKeys_dictSet_not_mem {α : Type} (m : List (String × α)) (k : String) (v : α)
    (h : k ∉ dictKeys m) : dictKeys (dictSet m k v) = dictKeys m ++ [k] := by
  induction m with
  | nil => simp [dictSet, dictKeys]
  | cons p rest ih =>
    obtain ⟨k1, v1⟩ := p
    simp only [dictKeys, List.map_cons, List.mem_cons, not_or] at h
    have h1 : k1 ≠ k := fun hh => h.1 hh.symm
    simp only [dictSet, if_neg h1, dictKeys, List.map_cons, List.cons_append]
    exact congrArg (k1 :: ·) (ih h.2)

theorem nodup_dictKeys_dictSet {α : Type} (m : List (String × α)) (k : String) (v : α)
    (h : (dictKeys m).Nodup) : (dictKeys (dictSet m k v)).Nodup := by
  by_cases hm : k ∈ dictKeys m
  · rw [dictKeys_dictSet_mem m k v hm]; exact h
  · rw [dictKeys_dictSet_not_mem m k v hm]
    exact List.Nodup.append h (List.nodup_singleton k)
      (by intro a ha hb; simp at hb; subst hb; exact hm ha)

theorem dictGet_isSome_iff {α : Type} (m : List (String × α)) (k : String) :
    (dictGet m k).isSome = true ↔ k ∈ dictKeys m := by
  induction m with
  | nil => simp [dictGet, dictKeys]
  | cons p rest ih =>
    obtain ⟨k1, v1⟩ := p
    by_cases h : k1 = k
    · subst h
      simp [dictGet, dictKeys]
    · have h' : k ≠ k1 := fun hh => h hh.symm
      simp [dictGet, h, dictKeys, ih, h']

theorem dictGet_mem {α : Type} (m : List (String × α)) (k : String) (v : α)
    (h : dictGet m k = some v) : (k, v) ∈ m := by
  induction m with
  | nil => simp [dictGet] at h
  | cons p rest ih =>
    obtain ⟨k1, v1⟩ := p
    by_cases h1 : k1 = k
    · subst h1
      have h2 : v1 = v := by simpa [dictGet] using h
      subst h2
      exact List.mem_cons_self _ _
    · simp only [dictGet, if_neg h1] at h
      exact List.mem_cons_of_mem _ (ih h)

theorem mem_dictGet {α : Type} (m : List (String × α)) (k : String) (v : α)
    (hnd : (dictKeys m).Nodup) (h : (k, v) ∈ m) : dictGet m k = some v := by
  induction m with
  | nil => simp at h
  | cons p rest ih =>
    obtain ⟨k1, v1⟩ := p
    simp only [dictKeys, List.map_cons, List.nodup_cons] at hnd
    rcases List.mem_cons.mp h with h1 | h1
    · obtain ⟨hk, hv⟩ := Prod.mk.injEq .. ▸ h1
      subst hk; subst hv
      simp [dictGet]
    · have hkne : k1 ≠ k := by
        intro hh
        subst hh
        exact hnd.1 (List.mem_map.mpr ⟨(k1, v), h1, rfl⟩)
      simp only [dictGet, if_neg hkne]
      exact ih hnd.2 h1

/-! ## buildMap lemmas -/

theorem buildMapFrom_keys_nodup (fs : List Dict) :
    ∀ (i : Nat) (m : List (String × Dict)), (dictKeys m).Nodup →
      (dictKeys (buildMapFrom i fs m)).Nodup := by
  induction fs with
  | nil => intro i m h; simpa [buildMapFrom] using h
  | cons f rest ih =>
    intro i m h
    simp only [buildMapFrom]
    exact ih (i + 1) _ (nodup_dictKeys_dictSet _ _ _ h)

theorem buildMap_keys_nodup (fs : List Dict) : (dictKeys (buildMap fs)).Nodup :=
  buildMapFrom_keys_nodup fs 0 [] (by simp [dictKeys])

theorem mem_dictSet_cases {α : Type} (m : List (String × α)) (k k' : String) (v v' : α)
    (h : (k', v') ∈ dictSet m k v) : (k', v') ∈ m ∨ (k' = k ∧ v' = v) := by
  induction m with
  | nil =>
    simp only [dictSet, List.mem_singleton] at h
    exact Or.inr ⟨congrArg Prod.fst h, congrArg Prod.snd h⟩
  | cons p rest ih =>
    obtain ⟨k1, v1⟩ := p
    by_cases h1 : k1 = k
    · subst h1
      simp only [dictSet, if_pos rfl] at h
      rcases List.mem_cons.mp h with h2 | h2
      · exact Or.inr ⟨congrArg Prod.fst h2, congrArg Prod.snd h2⟩
      · exact Or.inl (List.mem_cons_of_mem _ h2)
    · simp only [dictSet, if_neg h1] at h
      rcases List.mem_cons.mp h with h2 | h2
      · exact Or.inl (by simp [h2])
      · rcases ih h2 with h3 | h3
        · exact Or.inl (List.mem_cons_of_mem _ h3)
        · exact Or.inr h3

theorem buildMapFrom_values_mem (fs : List Dict) :
    ∀ (i : Nat) (m : List (String × Dict)) (k : String) (f : Dict),
      (k, f) ∈ buildMapFrom i fs m → (k, f) ∈ m ∨ f ∈ fs := by
  induction fs with
  | nil => intro i m k f h; exact Or.inl (by simpa [buildMapFrom] using h)
  | cons g rest ih =>
    intro i m k f h
    simp only [buildMapFrom] at h
    rcases ih (i + 1) _ k f h with h1 | h1
    · rcases mem_dictSet_cases _ _ _ _ _ h1 with h2 | h2
      · exact Or.inl h2
      · exact Or.inr (by simp [h2.2])
    · exact Or.inr (List.mem_cons_of_mem _ h1)

theorem buildMap_values_mem (fs : List Dict) (k : String) (f : Dict)
    (h : (k, f) ∈ buildMap fs) : f ∈ fs := by
  rcases buildMapFrom_values_mem fs 0 [] k f h with h1 | h1
  · simp at h1
  · exact h1

theorem buildMapFrom_lookup (fs : List Dict) :
    ∀ (i : Nat) (m : List (String × Dict)) (k : String),
      dictGet (buildMapFrom i fs m) k =
        match lastMatch i fs k with
        | some f => some f
        | none => dictGet m k := by
  induction fs with
  | nil => intro i m k; simp [buildMapFrom, lastMatch]
  | cons f rest ih =>
    intro i m k
    simp only [buildMapFrom, lastMatch]
    rw [ih (i + 1) _ k]
    cases hlm : lastMatch (i + 1) rest k with
    | some g => simp
    | none =>
      by_cases hid : get_feature_id f i = k
      · simp [hid, dictGet_dictSet_self]
      · simp [hid, dictGet_dictSet_ne _ _ _ _ (fun hh => hid hh.symm)]

theorem lastMatch_none (fs : List Dict) :
    ∀ (i : Nat) (k : String),
      (∀ (m : Nat) (hm : m < fs.length), get_feature_id (fs.get ⟨m, hm⟩) (i + m) ≠ k) →
      lastMatch i fs k = none := by
  induction fs with
  | nil => intro i k _; simp [lastMatch]
  | cons f rest ih =>
    intro i k h
    have hrest : lastMatch (i + 1) rest k = none := by
      apply ih
      intro m hm
      have := h (m + 1) (by simpa using Nat.succ_lt_succ hm)
      simpa [Nat.add_assoc, Nat.add_comm 1 m] using this
    have hf : get_feature_id f i ≠ k := by simpa using h 0 (by simp)
    simp [lastMatch, hrest, hf]

theorem lastMatch_spec (fs : List Dict) :
    ∀ (i : Nat) (k : String) (j : Nat) (hj : j < fs.length),
      get_feature_id (fs.get ⟨j, hj⟩) (i + j) = k →
      (∀ (m : Nat) (hm : m < fs.length), j < m →
        get_feature_id (fs.get ⟨m, hm⟩) (i + m) ≠ k) →
      lastMatch i fs k = some (fs.get ⟨j, hj⟩) := by
  induction fs with
  | nil => intro i k j hj; simp at hj
  | cons f rest ih =>
    intro i k j hj hmatch hlater
    cases j with
    | zero =>
      have hrest : lastMatch (i + 1) rest k = none := by
        apply lastMatch_none
        intro m hm
        have := hlater (m + 1) (by simpa using Nat.succ_lt_succ hm) (Nat.succ_pos m)
        simpa [Nat.add_assoc, Nat.add_comm 1 m] using this
      have hm2 : get_feature_id f i = k := by simpa using hmatch
      simp [lastMatch, hrest, hm2]
    | succ j1 =>
      have hj1 : j1 < rest.length := by simpa using Nat.lt_of_succ_lt_succ hj
      have hm1 : get_feature_id (rest.get ⟨j1, hj1⟩) (i + 1 + j1) = k := by
        simp only [List.get] at hmatch
        simpa [Nat.add_assoc, Nat.add_comm 1 j1] using hmatch
      have hl1 : ∀ (m : Nat) (hm : m < rest.length), j1 < m →
          get_feature_id (rest.get ⟨m, hm⟩) (i + 1 + m) ≠ k := by
        intro m hm hjm
        have := hlater (m + 1) (by simpa using Nat.succ_lt_succ hm)
          (Nat.succ_lt_succ hjm)
        simpa [Nat.add_assoc, Nat.add_comm 1 m] using this
      have := ih (i + 1) k j1 hj1 hm1 hl1
      simp [lastMatch, this, List.get]

/-! ## Reflexivity of Python equality on well-formed values -/

theorem keysNodupB_iff (xs : List (String × JVal)) :
    keysNodupB xs = true ↔ (dictKeys xs).Nodup := by
  induction xs with
  | nil => simp [keysNodupB, dictKeys]
  | cons p rest ih =>
    obtain ⟨k, v⟩ := p
    simp only [keysNodupB, Bool.and_eq_true, Bool.not_eq_true', dictKeys,
      List.map_cons, List.nodup_cons, ih]
    constructor
    · intro ⟨h1, h2⟩
      refine ⟨fun hm => ?_, h2⟩
      rw [contains_iff_mem.mpr hm] at h1
      simp at h1
    · intro ⟨h1, h2⟩
      refine ⟨?_, h2⟩
      cases hc : (rest.map Prod.fst).contains k with
      | false => rfl
      | true => exact absurd (contains_iff_mem.mp hc) h1

theorem wfJValList_mem {xs : List JVal} {x : JVal}
    (h : wfJValList xs = true) (hm : x ∈ xs) : wfJVal x = true := by
  induction xs with
  | nil => simp at hm
  | cons y rest ih =>
    simp only [wfJValList, Bool.and_eq_true] at h
    rcases List.mem_cons.mp hm with h1 | h1
    · subst h1; exact h.1
    · exact ih h.2 h1

theorem wfJValObj_mem {xs : List (String × JVal)} {k : String} {v : JVal}
    (h : wfJValObj xs = true) (hm : (k, v) ∈ xs) : wfJVal v = true := by
  induction xs with
  | nil => simp at hm
  | cons p rest ih =>
    obtain ⟨k1, v1⟩ := p
    simp only [wfJValObj, Bool.and_eq_true] at h
    rcases List.mem_cons.mp hm with h1 | h1
    · have := congrArg Prod.snd h1
      simp only at this
      subst this; exact h.1
    · exact ih h.2 h1

theorem keysSubB_self (xs : List (String × JVal)) : keysSubB xs xs = true := by
  unfold keysSubB
  rw [List.all_eq_true]
  intro p hp
  exact (dictGet_isSome_iff xs p.1).mpr (mem_dictKeys.mpr ⟨p.2, hp⟩)

theorem pyEqList_self (xs : List JVal) (h : ∀ x ∈ xs, pyEq x x = true) :
    pyEqList xs xs = true := by
  induction xs with
  | nil => rw [pyEqList]
  | cons x rest ih =>
    rw [pyEqList]
    exact Bool.and_eq_true _ _ |>.mpr
      ⟨h x (List.mem_cons_self _ _), ih (fun y hy => h y (List.mem_cons_of_mem _ hy))⟩

theorem pyEqObjSub_of (l ys : List (String × JVal))
    (h : ∀ k v, (k, v) ∈ l → dictGet ys k = some v ∧ pyEq v v = true) :
    pyEqObjSub l ys = true := by
  induction l with
  | nil => rw [pyEqObjSub]
  | cons p rest ih =>
    obtain ⟨k, v⟩ := p
    rw [pyEqObjSub]
    obtain ⟨hget, heq⟩ := h k v (List.mem_cons_self _ _)
    rw [hget]
    exact Bool.and_eq_true _ _ |>.mpr
      ⟨heq, ih (fun k1 v1 hm => h k1 v1 (List.mem_cons_of_mem _ hm))⟩

theorem pyEq_refl_fuel :
    ∀ (n : Nat) (v : JVal), sizeOf v ≤ n → wfJVal v = true → pyEq v v = true := by
  intro n
  induction n with
  | zero =>
    intro v hs
    exact absurd hs (by cases v <;> simp)
  | succ n ih =>
    intro v hs hwf
    cases v with
    | null => rw [pyEq]
    | bool x => rw [pyEq]; simp
    | num x => rw [pyEq]; simp
    | str s => rw [pyEq]; simp
    | arr xs =>
      rw [pyEq]
      apply pyEqList_self
      intro x hx
      have hsz : sizeOf x ≤ n := by
        have h1 := List.sizeOf_lt_of_mem hx
        have h2 : sizeOf (JVal.arr xs) = 1 + sizeOf xs := by simp
        omega
      exact ih x hsz (wfJValList_mem (by rw [wfJVal] at hwf; exact hwf) hx)
    | obj xs =>
      rw [pyEq]
      rw [wfJVal, Bool.and_eq_true] at hwf
      refine Bool.and_eq_true _ _ |>.mpr ⟨?_, keysSubB_self xs⟩
      apply pyEqObjSub_of
      intro k v hm
      refine ⟨mem_dictGet _ _ _ ((keysNodupB_iff xs).mp hwf.1) hm, ?_⟩
      have hsz : sizeOf v ≤ n := by
        have h1 := List.sizeOf_lt_of_mem hm
        have h2 : sizeOf (JVal.obj xs) = 1 + sizeOf xs := by simp
        have h3 : sizeOf (k, v) = 1 + sizeOf k + sizeOf v := by simp
        omega
      exact ih v hsz (wfJValObj_mem hwf.2 hm)

theorem pyEq_refl (v : JVal) (h : wfJVal v = true) : pyEq v v = true :=
  pyEq_refl_fuel (sizeOf v) v (Nat.le_refl _) h

/-- A well-formed feature dictionary: duplicate-free keys at every level. -/
def wfFeature (f : Dict) : Bool := wfJVal (.obj f)

theorem pyDictEq_refl (f : Dict) (h : wfFeature f = true) : pyDictEq f f = true := by
  have := pyEq_refl (.obj f) h
  rw [pyEq] at this
  exact this

/-! ## Partition lemmas for `compare_features` -/

theorem contains_false_iff {l : List String} {k : String} :
    l.contains k = false ↔ k ∉ l := by
  constructor
  · intro hc hm
    rw [contains_iff_mem.mpr hm] at hc
    simp at hc
  · intro hm
    cases hc : l.contains k with
    | false => rfl
    | true => exact absurd (contains_iff_mem.mp hc) hm

theorem length_filterMap_isSome {α β : Type} (f : α → Option β) (l : List α) :
    (l.filterMap f).length = (l.filter (fun a => (f a).isSome)).length := by
  induction l with
  | nil => simp
  | cons x rest ih =>
    cases hf : f x with
    | none => simp [List.filterMap_cons, hf, List.filter_cons, ih]
    | some b => simp [List.filterMap_cons, hf, List.filter_cons, ih]

theorem filterMap_if_none {α β : Type} (p : α → Bool) (g : α → β) (l : List α) :
    l.filterMap (fun a => if p a then none else some (g a)) =
      (l.filter (fun a => !p a)).map g := by
  induction l with
  | nil => simp
  | cons x rest ih =>
    by_cases hp : p x = true
    · simp [List.filterMap_cons, List.filter_cons, hp, ih]
    · simp [List.filterMap_cons, List.filter_cons, hp, ih]

theorem filterMap_if_some {α β : Type} (p : α → Bool) (g : α → β) (l : List α) :
    l.filterMap (fun a => if p a then some (g a) else none) =
      (l.filter p).map g := by
  induction l with
  | nil => simp
  | cons x rest ih =>
    by_cases hp : p x = true
    · simp [List.filterMap_cons, List.filter_cons, hp, ih]
    · simp [List.filterMap_cons, List.filter_cons, hp, ih]

theorem filterMap_assoc_keys {β : Type} (m : List (String × Dict))
    (F : String × Dict → Option β) (hnd : (dictKeys m).Nodup) :
    m.filterMap F = (dictKeys m).filterMap (fun k =>
      match dictGet m k with
      | some v => F (k, v)
      | none => none) := by
  induction m with
  | nil => simp [dictKeys]
  | cons p rest ih =>
    obtain ⟨k1, v1⟩ := p
    simp only [dictKeys, List.map_cons, List.nodup_cons] at hnd
    have htail : ∀ k ∈ rest.map Prod.fst,
        (match dictGet ((k1, v1) :: rest) k with
         | some v => F (k, v)
         | none => none) =
        (match dictGet rest k with
         | some v => F (k, v)
         | none => none) := by
      intro k hk
      have hne : k1 ≠ k := fun hh => hnd.1 (hh ▸ hk)
      simp [dictGet, hne]
    have hget : dictGet ((k1, v1) :: rest) k1 = some v1 := by simp [dictGet]
    have ih2 := ih hnd.2
    simp only [dictKeys] at ih2
    simp only [dictKeys, List.map_cons, List.filterMap_cons, hget]
    rw [List.filterMap_congr htail, ← ih2]

theorem added_length (b c : List Dict) :
    (compare_features b c).added.length = (addedIds b c).length := by
  show (((buildMap c).filter
      (fun p => !((dictKeys (buildMap b)).contains p.1))).map Prod.snd).length =
    ((dictKeys (buildMap c)).filter
      (fun k => !((dictKeys (buildMap b)).contains k))).length
  rw [List.length_map]
  unfold dictKeys
  rw [List.filter_map, List.length_map]
  rfl

theorem removed_length (b c : List Dict) :
    (compare_features b c).removed.length = (removedIds b c).length := by
  show (((buildMap b).filter
      (fun p => !((dictKeys (buildMap c)).contains p.1))).map Prod.snd).length =
    ((dictKeys (buildMap b)).filter
      (fun k => !((dictKeys (buildMap c)).contains k))).length
  rw [List.length_map]
  unfold dictKeys
  rw [List.filter_map, List.length_map]
  rfl

theorem commonPairs_keys (b c : List Dict) :
    commonPairs b c = (sideIds b).filterMap (fun k =>
      match dictGet (buildMap b) k with
      | some bf => (dictGet (buildMap c) k).map (fun cf => (k, bf, cf))
      | none => none) :=
  filterMap_assoc_keys _ _ (buildMap_keys_nodup b)

theorem modified_length (b c : List Dict) :
    (compare_features b c).modified.length = (modifiedIds b c).length := by
  show ((commonPairs b c).filterMap
      (fun t => if pyDictEq t.2.1 t.2.2 then none
        else some (ModEntry.mk t.1 t.2.1 t.2.2))).length = (modifiedIds b c).length
  rw [commonPairs_keys, List.filterMap_filterMap, length_filterMap_isSome]
  unfold modifiedIds commonIds
  rw [List.filter_filter]
  apply congrArg
  apply List.filter_congr
  intro k hk
  obtain ⟨bf, hbf⟩ := Option.isSome_iff_exists.mp ((dictGet_isSome_iff _ k).mpr hk)
  cases hcf : dictGet (buildMap c) k with
  | none =>
    have : (sideIds c).contains k = false :=
      contains_false_iff.mpr (fun hm => by
        have h2 := (dictGet_isSome_iff (buildMap c) k).mpr hm
        rw [hcf] at h2
        simp at h2)
    simp [hbf, hcf, this]
  | some cf =>
    have : (sideIds c).contains k = true :=
      contains_iff_mem.mpr ((dictGet_isSome_iff _ k).mp (by simp [hcf]))
    by_cases hde : pyDictEq bf cf = true
    · simp [hbf, hcf, hde, this, contains_iff_mem.mp this]
    · simp [hbf, hcf, Bool.eq_false_iff.mpr hde, this, contains_iff_mem.mp this]

theorem unchanged_length (b c : List Dict) :
    (compare_features b c).unchanged.length = (unchangedIds b c).length := by
  show ((commonPairs b c).filterMap
      (fun t => if pyDictEq t.2.1 t.2.2 then some t.2.1 else none)).length =
    (unchangedIds b c).length
  rw [commonPairs_keys, List.filterMap_filterMap, length_filterMap_isSome]
  unfold unchangedIds commonIds
  rw [List.filter_filter]
  apply congrArg
  apply List.filter_congr
  intro k hk
  obtain ⟨bf, hbf⟩ := Option.isSome_iff_exists.mp ((dictGet_isSome_iff _ k).mpr hk)
  cases hcf : dictGet (buildMap c) k with
  | none =>
    have : (sideIds c).contains k = false :=
      contains_false_iff.mpr (fun hm => by
        have h2 := (dictGet_isSome_iff (buildMap c) k).mpr hm
        rw [hcf] at h2
        simp at h2)
    simp [hbf, hcf, this]
  | some cf =>
    have : (sideIds c).contains k = true :=
      contains_iff_mem.mpr ((dictGet_isSome_iff _ k).mp (by simp [hcf]))
    by_cases hde : pyDictEq bf cf = true
    · simp [hbf, hcf, hde, this, contains_iff_mem.mp this]
    · simp [hbf, hcf, Bool.eq_false_iff.mpr hde, this, contains_iff_mem.mp this]

theorem mem_addedIds {b c : List Dict} {k : String} :
    k ∈ addedIds b c ↔ k ∈ sideIds c ∧ k ∉ sideIds b := by
  unfold addedIds
  rw [List.mem_filter]
  constructor
  · rintro ⟨h1, h2⟩
    refine ⟨h1, contains_false_iff.mp ?_⟩
    cases hc : (sideIds b).contains k with
    | false => rfl
    | true => rw [hc] at h2; simp at h2
  · rintro ⟨h1, h2⟩
    exact ⟨h1, by rw [contains_false_iff.mpr h2]; rfl⟩

theorem mem_removedIds {b c : List Dict} {k : String} :
    k ∈ removedIds b c ↔ k ∈ sideIds b ∧ k ∉ sideIds c := by
  unfold removedIds
  rw [List.mem_filter]
  constructor
  · rintro ⟨h1, h2⟩
    refine ⟨h1, contains_false_iff.mp ?_⟩
    cases hc : (sideIds c).contains k with
    | false => rfl
    | true => rw [hc] at h2; simp at h2
  · rintro ⟨h1, h2⟩
    exact ⟨h1, by rw [contains_false_iff.mpr h2]; rfl⟩

theorem mem_commonIds {b c : List Dict} {k : String} :
    k ∈ commonIds b c ↔ k ∈ sideIds b ∧ k ∈ sideIds c := by
  unfold commonIds
  rw [List.mem_filter]
  exact and_congr Iff.rfl contains_iff_mem

theorem mem_modifiedIds {b c : List Dict} {k : String} :
    k ∈ modifiedIds b c ↔ k ∈ commonIds b c ∧
      ∃ bf cf, dictGet (buildMap b) k = some bf ∧ dictGet (buildMap c) k = some cf ∧
        pyDictEq bf cf = false := by
  unfold modifiedIds
  rw [List.mem_filter]
  apply and_congr Iff.rfl
  constructor
  · intro h
    cases hbf : dictGet (buildMap b) k with
    | none => simp only [hbf] at h; simp at h
    | some bf =>
      cases hcf : dictGet (buildMap c) k with
      | none => simp only [hbf, hcf] at h; simp at h
      | some cf =>
        simp only [hbf, hcf] at h
        exact ⟨bf, cf, rfl, rfl, by simpa using h⟩
  · rintro ⟨bf, cf, hbf, hcf, hde⟩
    simp [hbf, hcf, hde]

theorem mem_unchangedIds {b c : List Dict} {k : String} :
    k ∈ unchangedIds b c ↔ k ∈ commonIds b c ∧
      ∃ bf cf, dictGet (buildMap b) k = some bf ∧ dictGet (buildMap c) k = some cf ∧
        pyDictEq bf cf = true := by
  unfold unchangedIds
  rw [List.mem_filter]
  apply and_congr Iff.rfl
  constructor
  · intro h
    cases hbf : dictGet (buildMap b) k with
    | none => simp only [hbf] at h; simp at h
    | some bf =>
      cases hcf : dictGet (buildMap c) k with
      | none => simp only [hbf, hcf] at h; simp at h
      | some cf =>
        simp only [hbf, hcf] at h
        exact ⟨bf, cf, rfl, rfl, h⟩
  · rintro ⟨bf, cf, hbf, hcf, hde⟩
    simp [hbf, hcf, hde]

theorem partition_cover (b c : List Dict) (k : String) :
    (k ∈ sideIds b ∨ k ∈ sideIds c) ↔
      (k ∈ addedIds b c ∨ k ∈ removedIds b c ∨ k ∈ modifiedIds b c ∨
        k ∈ unchangedIds b c) := by
  constructor
  · intro h
    by_cases hb : k ∈ sideIds b
    · by_cases hc : k ∈ sideIds c
      · obtain ⟨bf, hbf⟩ := Option.isSome_iff_exists.mp ((dictGet_isSome_iff _ k).mpr hb)
        obtain ⟨cf, hcf⟩ := Option.isSome_iff_exists.mp ((dictGet_isSome_iff _ k).mpr hc)
        by_cases hde : pyDictEq bf cf = true
        · exact Or.inr (Or.inr (Or.inr (mem_unchangedIds.mpr
            ⟨mem_commonIds.mpr ⟨hb, hc⟩, bf, cf, hbf, hcf, hde⟩)))
        · exact Or.inr (Or.inr (Or.inl (mem_modifiedIds.mpr
            ⟨mem_commonIds.mpr ⟨hb, hc⟩, bf, cf, hbf, hcf, Bool.eq_false_iff.mpr hde⟩)))
      · exact Or.inr (Or.inl (mem_removedIds.mpr ⟨hb, hc⟩))
    · rcases h with h | h
      · exact absurd h hb
      · exact Or.inl (mem_addedIds.mpr ⟨h, hb⟩)
  · intro h
    rcases h with h | h | h | h
    · exact Or.inr (mem_addedIds.mp h).1
    · exact Or.inl (mem_removedIds.mp h).1
    · exact Or.inl (mem_commonIds.mp (mem_modifiedIds.mp h).1).1
    · exact Or.inl (mem_commonIds.mp (mem_unchangedIds.mp h).1).1

theorem partition_unique (b c : List Dict) (k : String)
    (h : k ∈ sideIds b ∨ k ∈ sideIds c) :
    (if k ∈ addedIds b c then 1 else 0) + (if k ∈ removedIds b c then 1 else 0) +
      (if k ∈ modifiedIds b c then 1 else 0) +
      (if k ∈ unchangedIds b c then 1 else 0) = 1 := by
  by_cases hb : k ∈ sideIds b
  · by_cases hc : k ∈ sideIds c
    · have hadd : k ∉ addedIds b c := fun hm => (mem_addedIds.mp hm).2 hb
      have hrem : k ∉ removedIds b c := fun hm => (mem_removedIds.mp hm).2 hc
      obtain ⟨bf, hbf⟩ := Option.isSome_iff_exists.mp ((dictGet_isSome_iff _ k).mpr hb)
      obtain ⟨cf, hcf⟩ := Option.isSome_iff_exists.mp ((dictGet_isSome_iff _ k).mpr hc)
      by_cases hde : pyDictEq bf cf = true
      · have hmod : k ∉ modifiedIds b c := by
          intro hm
          obtain ⟨_, bf2, cf2, hbf2, hcf2, hde2⟩ := mem_modifiedIds.mp hm
          rw [hbf] at hbf2
          rw [hcf] at hcf2
          rw [← Option.some.inj hbf2, ← Option.some.inj hcf2] at hde2
          rw [hde] at hde2
          simp at hde2
        have hunch : k ∈ unchangedIds b c := mem_unchangedIds.mpr
          ⟨mem_commonIds.mpr ⟨hb, hc⟩, bf, cf, hbf, hcf, hde⟩
        simp [hadd, hrem, hmod, hunch]
      · have hunch : k ∉ unchangedIds b c := by
          intro hm
          obtain ⟨_, bf2, cf2, hbf2, hcf2, hde2⟩ := mem_unchangedIds.mp hm
          rw [hbf] at hbf2
          rw [hcf] at hcf2
          rw [← Option.some.inj hbf2, ← Option.some.inj hcf2] at hde2
          exact hde hde2
        have hmod : k ∈ modifiedIds b c := mem_modifiedIds.mpr
          ⟨mem_commonIds.mpr ⟨hb, hc⟩, bf, cf, hbf, hcf, Bool.eq_false_iff.mpr hde⟩
        simp [hadd, hrem, hmod, hunch]
    · have hadd : k ∉ addedIds b c := fun hm => hc (mem_addedIds.mp hm).1
      have hrem : k ∈ removedIds b c := mem_removedIds.mpr ⟨hb, hc⟩
      have hmod : k ∉ modifiedIds b c :=
        fun hm => hc (mem_commonIds.mp (mem_modifiedIds.mp hm).1).2
      have hunch : k ∉ unchangedIds b c :=
        fun hm => hc (mem_commonIds.mp (mem_unchangedIds.mp hm).1).2
      simp [hadd, hrem, hmod, hunch]
  · have hc : k ∈ sideIds c := by
      rcases h with h | h
      · exact absurd h hb
      · exact h
    have hadd : k ∈ addedIds b c := mem_addedIds.mpr ⟨hc, hb⟩
    have hrem : k ∉ removedIds b c := fun hm => hb (mem_removedIds.mp hm).1
    have hmod : k ∉ modifiedIds b c :=
      fun hm => hb (mem_commonIds.mp (mem_modifiedIds.mp hm).1).1
    have hunch : k ∉ unchangedIds b c :=
      fun hm => hb (mem_commonIds.mp (mem_unchangedIds.mp hm).1).1
    simp [hadd, hrem, hmod, hunch]

theorem distinct_card (b c : List Dict) :
    (sideIds b).length + (addedIds b c).length =
      ((sideIds b).toFinset ∪ (sideIds c).toFinset).card := by
  have hB : (sideIds b).Nodup := buildMap_keys_nodup b
  have hC : (sideIds c).Nodup := buildMap_keys_nodup c
  have hA : (addedIds b c).Nodup := hC.filter _
  have hdisj : (sideIds b).Disjoint (addedIds b c) := by
    intro x hx hxa
    exact (mem_addedIds.mp hxa).2 hx
  have hnodup : (sideIds b ++ addedIds b c).Nodup := hB.append hA hdisj
  have hfin : (sideIds b ++ addedIds b c).toFinset =
      (sideIds b).toFinset ∪ (sideIds c).toFinset := by
    ext x
    simp only [List.toFinset_append, Finset.mem_union, List.mem_toFinset]
    constructor
    · rintro (h | h)
      · exact Or.inl h
      · exact Or.inr (mem_addedIds.mp h).1
    · rintro (h | h)
      · exact Or.inl h
      · by_cases hb : x ∈ sideIds b
        · exact Or.inl hb
        · exact Or.inr (mem_addedIds.mpr ⟨h, hb⟩)
  calc (sideIds b).length + (addedIds b c).length
      = (sideIds b ++ addedIds b c).length := (List.length_append _ _).symm
    _ = (sideIds b ++ addedIds b c).toFinset.card :=
        (List.toFinset_card_of_nodup hnodup).symm
    _ = ((sideIds b).toFinset ∪ (sideIds c).toFinset).card := by rw [hfin]

theorem partition_length_sum (b c : List Dict) :
    (compare_features b c).added.length + (compare_features b c).removed.length +
      (compare_features b c).modified.length +
      (compare_features b c).unchanged.length =
      ((sideIds b).toFinset ∪ (sideIds c).toFinset).card := by
  rw [added_length, removed_length, modified_length, unchanged_length]
  have hmu : (modifiedIds b c).length + (unchangedIds b c).length =
      (commonIds b c).length := by
    have hsplit := List.length_eq_length_filter_add
      (l := commonIds b c)
      (fun k => match dictGet (buildMap b) k, dictGet (buildMap c) k with
        | some bf, some cf => pyDictEq bf cf
        | _, _ => false)
    have hcongr : (modifiedIds b c) = (commonIds b c).filter
        (fun k => !(match dictGet (buildMap b) k, dictGet (buildMap c) k with
          | some bf, some cf => pyDictEq bf cf
          | _, _ => false)) := by
      unfold modifiedIds
      apply List.filter_congr
      intro k hk
      obtain ⟨hb, hc⟩ := mem_commonIds.mp hk
      obtain ⟨bf, hbf⟩ := Option.isSome_iff_exists.mp ((dictGet_isSome_iff _ k).mpr hb)
      obtain ⟨cf, hcf⟩ := Option.isSome_iff_exists.mp ((dictGet_isSome_iff _ k).mpr hc)
      simp [hbf, hcf]
    rw [hcongr]
    unfold unchangedIds
    omega
  have hrc : (removedIds b c).length + (commonIds b c).length =
      (sideIds b).length := by
    have hsplit := List.length_eq_length_filter_add
      (l := sideIds b) (fun k => (sideIds c).contains k)
    unfold removedIds commonIds
    omega
  have htotal := distinct_card b c
  omega

/-! ## Claim C1 -/

/-- C1: for every pair of feature lists given to `compare_features`, the
result partitions the identities (computed per the identity resolver with
last-write-wins on duplicates within a side): every identity in the union
of the base-side and compare-side identity sets lies in exactly one of the
four categories, the four category lengths agree with the four identity
sets, and `len(added)+len(removed)+len(modified)+len(unchanged)` equals the
number of distinct identities across both sides. -/
theorem compare_features_partition (b c : List Dict) :
    (∀ k, (k ∈ sideIds b ∨ k ∈ sideIds c) ↔
        (k ∈ addedIds b c ∨ k ∈ removedIds b c ∨ k ∈ modifiedIds b c ∨
          k ∈ unchangedIds b c)) ∧
    (∀ k, (k ∈ sideIds b ∨ k ∈ sideIds c) →
        (if k ∈ addedIds b c then 1 else 0) +
          (if k ∈ removedIds b c then 1 else 0) +
          (if k ∈ modifiedIds b c then 1 else 0) +
          (if k ∈ unchangedIds b c then 1 else 0) = 1) ∧
    (compare_features b c).added.length = (addedIds b c).length ∧
    (compare_features b c).removed.length = (removedIds b c).length ∧
    (compare_features b c).modified.length = (modifiedIds b c).length ∧
    (compare_features b c).unchanged.length = (unchangedIds b c).length ∧
    (compare_features b c).added.length + (compare_features b c).removed.length +
      (compare_features b c).modified.length +
      (compare_features b c).unchanged.length =
      ((sideIds b).toFinset ∪ (sideIds c).toFinset).card :=
  ⟨partition_cover b c, partition_unique b c, added_length b c, removed_length b c,
    modified_length b c, unchanged_length b c, partition_length_sum b c⟩

/-- Witness: the partition theorem applied at a concrete pair of feature
lists (empty base, one compare-side feature with identity `"a"`). -/
theorem compare_features_partition_witness :
    (if "a" ∈ addedIds [] [[("id", JVal.str "a")]] then 1 else 0) +
      (if "a" ∈ removedIds [] [[("id", JVal.str "a")]] then 1 else 0) +
      (if "a" ∈ modifiedIds [] [[("id", JVal.str "a")]] then 1 else 0) +
      (if "a" ∈ unchangedIds [] [[("id", JVal.str "a")]] then 1 else 0) = 1 :=
  (compare_features_partition [] [[("id", JVal.str "a")]]).2.1 "a"
    (Or.inr (by decide))

/-! ## Claim C6 -/

/-- C6: within one side, duplicate identities resolve last-write-wins: if
the features at positions `i < j` both resolve to identity `k` and `j` is
the last position resolving to `k`, the per-side identity map retains the
feature at position `j`, holding exactly one entry for `k` (the earlier
feature is silently discarded; the map construction is total, so no error
is raised). -/
theorem compare_features_last_write_wins (l : List Dict) (i j : Nat) (k : String)
    (hi : i < l.length) (hj : j < l.length) (hij : i < j)
    (hidi : get_feature_id (l.get ⟨i, hi⟩) i = k)
    (hidj : get_feature_id (l.get ⟨j, hj⟩) j = k)
    (hlast : ∀ (m : Nat) (hm : m < l.length), j < m →
      get_feature_id (l.get ⟨m, hm⟩) m ≠ k) :
    dictGet (buildMap l) k = some (l.get ⟨j, hj⟩) ∧
      (dictKeys (buildMap l)).count k = 1 := by
  have hlm : lastMatch 0 l k = some (l.get ⟨j, hj⟩) := by
    apply lastMatch_spec l 0 k j hj
    · simpa using hidj
    · intro m hm hjm
      simpa using hlast m hm hjm
  have hget : dictGet (buildMap l) k = some (l.get ⟨j, hj⟩) := by
    show dictGet (buildMapFrom 0 l []) k = _
    rw [buildMapFrom_lookup l 0 [] k]
    simp [hlm]
  refine ⟨hget, ?_⟩
  have hmem : k ∈ dictKeys (buildMap l) :=
    (dictGet_isSome_iff _ k).mp (by simp [hget])
  have hnd : (dictKeys (buildMap l)).Nodup := buildMap_keys_nodup l
  have hle := List.nodup_iff_count_le_one.mp hnd k
  have hpos := List.count_pos_iff.mpr hmem
  omega

/-- Witness: two features at positions 0 < 1 both resolving to identity
`"a"`; the map retains the second. -/
theorem compare_features_last_write_wins_witness :
    dictGet (buildMap [[("id", JVal.str "a"), ("n", JVal.num 0)],
        [("id", JVal.str "a"), ("n", JVal.num 1)]]) "a" =
      some [("id", JVal.str "a"), ("n", JVal.num 1)] ∧
    (dictKeys (buildMap [[("id", JVal.str "a"), ("n", JVal.num 0)],
        [("id", JVal.str "a"), ("n", JVal.num 1)]])).count "a" = 1 := by
  have h := compare_features_last_write_wins
    [[("id", JVal.str "a"), ("n", JVal.num 0)], [("id", JVal.str "a"), ("n", JVal.num 1)]]
    0 1 "a" (by decide) (by decide) (by decide) rfl rfl
    (by intro m hm hjm; simp at hm; omega)
  simpa using h

/-! ## Claim C5 -/

theorem scanKeys_hit (props : Dict) (ks : List String) :
    ∀ (n : Nat) (hn : n < ks.length) (v : JVal),
      dictGet props (ks.get ⟨n, hn⟩) = some v →
      (∀ (m : Nat) (hm : m < ks.length), m < n →
        dictGet props (ks.get ⟨m, hm⟩) = none) →
      scanKeys props ks = some v := by
  induction ks with
  | nil => intro n hn; simp at hn
  | cons key rest ih =>
    intro n hn v hhit hbefore
    cases n with
    | zero =>
      simp only [List.get] at hhit
      simp [scanKeys, hhit]
    | succ n1 =>
      have h0 : dictGet props key = none := by
        simpa using hbefore 0 (by simp) (Nat.succ_pos n1)
      have hn1 : n1 < rest.length := by simpa using Nat.lt_of_succ_lt_succ hn
      have hhit1 : dictGet props (rest.get ⟨n1, hn1⟩) = some v := by
        simpa using hhit
      have hb1 : ∀ (m : Nat) (hm : m < rest.length), m < n1 →
          dictGet props (rest.get ⟨m, hm⟩) = none := by
        intro m hm hmn
        simpa using hbefore (m + 1) (by simpa using Nat.succ_lt_succ hm)
          (Nat.succ_lt_succ hmn)
      simp [scanKeys, h0, ih n1 hn1 v hhit1 hb1]

theorem scanKeys_miss (props : Dict) (ks : List String) :
    (∀ (n : Nat) (hn : n < ks.length), dictGet props (ks.get ⟨n, hn⟩) = none) →
    scanKeys props ks = none := by
  induction ks with
  | nil => intro _; simp [scanKeys]
  | cons key rest ih =>
    intro h
    have h0 : dictGet props key = none := by simpa using h 0 (by simp)
    have h1 : ∀ (n : Nat) (hn : n < rest.length),
        dictGet props (rest.get ⟨n, hn⟩) = none := by
      intro n hn
      simpa using h (n + 1) (by simpa using Nat.succ_lt_succ hn)
    simp [scanKeys, h0, ih h1]

/-- C5: identity resolution is a pure total function on (feature, index):
with an own `id` attribute the stringified `id` value wins; otherwise the
stringified value of the first present key among
`id, ID, fid, FID, OBJECTID, name, NAME` in the `properties` mapping;
otherwise (no `id`, and `properties` absent or holding none of the
recognized keys) the synthetic identity `"feature_<index>"`. -/
theorem get_feature_id_spec (feature : Dict) (index : Nat) :
    (∀ v, dictGet feature "id" = some v →
      get_feature_id feature index = pyStr v) ∧
    (dictGet feature "id" = none →
      ∀ props, dictGet feature "properties" = some (.obj props) →
        (∀ (n : Nat) (hn : n < featureIdKeys.length) (v : JVal),
          dictGet props (featureIdKeys.get ⟨n, hn⟩) = some v →
          (∀ (m : Nat) (hm : m < featureIdKeys.length), m < n →
            dictGet props (featureIdKeys.get ⟨m, hm⟩) = none) →
          get_feature_id feature index = pyStr v) ∧
        ((∀ (n : Nat) (hn : n < featureIdKeys.length),
            dictGet props (featureIdKeys.get ⟨n, hn⟩) = none) →
          get_feature_id feature index = "feature_" ++ toString index)) ∧
    (dictGet feature "id" = none → dictGet feature "properties" = none →
      get_feature_id feature index = "feature_" ++ toString index) := by
  refine ⟨?_, ?_, ?_⟩
  · intro v hv
    simp [get_feature_id, hv]
  · intro hid props hprops
    constructor
    · intro n hn v hhit hbefore
      have hscan := scanKeys_hit props featureIdKeys n hn v hhit hbefore
      simp [get_feature_id, hid, hprops, hscan]
    · intro hmiss
      have hscan := scanKeys_miss props featureIdKeys hmiss
      simp [get_feature_id, hid, hprops, hscan]
  · intro hid hprops
    simp [get_feature_id, hid, hprops, Option.getD, scanKeys, dictGet]

/-- Witness: a feature with no `id` and no recognized property key, at
positional index 5, resolves to the synthetic identity `"feature_5"`. -/
theorem get_feature_id_spec_witness :
    get_feature_id [("type", JVal.str "Feature")] 5 = "feature_5" :=
  ((get_feature_id_spec [("type", JVal.str "Feature")] 5).2.2 rfl rfl).trans
    (by decide)

/-! ## Claim C9 -/

theorem parse_stage_ne_unsupported (path : String) (parsed : Option JVal) (s : String) :
    parse_stage path parsed ≠ .error (.unsupportedFormat s) := by
  unfold parse_stage
  cases parsed with
  | none =>
    intro h
    exact GeoDiffError.noConfusion (Except.error.inj h)
  | some v =>
    cases v with
    | obj d =>
      show (if (d.map Prod.fst).contains "type" then
          (Except.ok d : Except GeoDiffError Dict)
        else .error .invalidMissingType) ≠ _
      by_cases hc : (d.map Prod.fst).contains "type" = true
      · rw [if_pos hc]
        intro h
        exact Except.noConfusion h
      · rw [if_neg hc]
        intro h
        exact GeoDiffError.noConfusion (Except.error.inj h)
    | null => intro h; exact GeoDiffError.noConfusion (Except.error.inj h)
    | bool x => intro h; exact GeoDiffError.noConfusion (Except.error.inj h)
    | num x => intro h; exact GeoDiffError.noConfusion (Except.error.inj h)
    | str x => intro h; exact GeoDiffError.noConfusion (Except.error.inj h)
    | arr xs => intro h; exact GeoDiffError.noConfusion (Except.error.inj h)

/-- C9: with the file existing, the loader raises `UnsupportedFormat`
exactly when the lower-cased extension is not `".geojson"`; in particular
any case variant of `.geojson` passes the extension check and proceeds to
the content checks. -/
theorem load_geojson_extension_case_insensitive (path : String) (parsed : Option JVal) :
    ((∃ s, load_geojson path true parsed = .error (.unsupportedFormat s)) ↔
      pyLower (pySuffix path) ≠ ".geojson") ∧
    (pyLower (pySuffix path) = ".geojson" →
      load_geojson path true parsed = parse_stage path parsed) := by
  have hload : load_geojson path true parsed =
      if !(pyLower (pySuffix path) == ".geojson") then
        .error (.unsupportedFormat (pySuffix path))
      else parse_stage path parsed := by
    unfold load_geojson
    simp
  constructor
  · constructor
    · rintro ⟨s, hs⟩ heq
      rw [hload,
        show (pyLower (pySuffix path) == ".geojson") = true from beq_iff_eq.mpr heq] at hs
      simp only [Bool.not_true, Bool.false_eq_true, if_false] at hs
      exact parse_stage_ne_unsupported path parsed s hs
    · intro hne
      refine ⟨pySuffix path, ?_⟩
      rw [hload, show (pyLower (pySuffix path) == ".geojson") = false from
        beq_eq_false_iff_ne.mpr hne]
      simp
  · intro heq
    rw [hload,
      show (pyLower (pySuffix path) == ".geojson") = true from beq_iff_eq.mpr heq]
    simp

/-- Witness: a file whose extension is the case variant `.GEOJSON` is not
rejected as unsupported; the loader proceeds to the content checks. -/
theorem load_geojson_extension_witness :
    load_geojson "data.GEOJSON" true (some (.obj [("type", JVal.str "FeatureCollection")])) =
      parse_stage "data.GEOJSON" (some (.obj [("type", JVal.str "FeatureCollection")])) :=
  (load_geojson_extension_case_insensitive "data.GEOJSON"
    (some (.obj [("type", JVal.str "FeatureCollection")]))).2 (by decide)

/-! ## compute_diff dispatch helpers -/

theorem pyEq_str_iff (t : JVal) (s : String) : pyEq t (.str s) = true ↔ t = .str s := by
  cases t with
  | str x =>
    rw [show pyEq (.str x) (.str s) = (x == s) by rw [pyEq] <;> simp]
    simp
  | null => rw [show pyEq .null (.str s) = false by rw [pyEq] <;> simp]; simp
  | bool x => rw [show pyEq (.bool x) (.str s) = false by rw [pyEq] <;> simp]; simp
  | num x => rw [show pyEq (.num x) (.str s) = false by rw [pyEq] <;> simp]; simp
  | arr xs => rw [show pyEq (.arr xs) (.str s) = false by rw [pyEq] <;> simp]; simp
  | obj xs => rw [show pyEq (.obj xs) (.str s) = false by rw [pyEq] <;> simp]; simp

theorem compute_diff_docs_mismatch (bf cf : String) (bd cd : Dict)
    (h : pyEq ((dictGet bd "type").getD .null) ((dictGet cd "type").getD .null) = false) :
    compute_diff_docs bf cf bd cd =
      .error (.typeMismatch ((dictGet bd "type").getD .null)
        ((dictGet cd "type").getD .null)) := by
  unfold compute_diff_docs
  simp [h]

theorem compute_diff_docs_fc (bf cf : String) (bd cd : Dict)
    (hbc : pyEq ((dictGet bd "type").getD .null) ((dictGet cd "type").getD .null) = true)
    (hfc : pyEq ((dictGet bd "type").getD .null) (.str "FeatureCollection") = true) :
    compute_diff_docs bf cf bd cd =
      .ok (buildDiffResult bf cf ((dictGet bd "type").getD .null)
        (featuresOf bd) (featuresOf cd)) := by
  unfold compute_diff_docs
  simp [hbc, hfc]

theorem compute_diff_docs_feature (bf cf : String) (bd cd : Dict)
    (hbc : pyEq ((dictGet bd "type").getD .null) ((dictGet cd "type").getD .null) = true)
    (hfe : pyEq ((dictGet bd "type").getD .null) (.str "Feature") = true) :
    compute_diff_docs bf cf bd cd =
      .ok (buildDiffResult bf cf ((dictGet bd "type").getD .null) [bd] [cd]) := by
  have ht : (dictGet bd "type").getD .null = .str "Feature" :=
    (pyEq_str_iff _ _).mp hfe
  have hfc : pyEq ((dictGet bd "type").getD .null) (.str "FeatureCollection") = false := by
    rw [ht, pyEq]
    simp
  unfold compute_diff_docs
  simp [hbc, hfc, hfe]

theorem compute_diff_docs_unsupported (bf cf : String) (bd cd : Dict)
    (hbc : pyEq ((dictGet bd "type").getD .null) ((dictGet cd "type").getD .null) = true)
    (hfc : pyEq ((dictGet bd "type").getD .null) (.str "FeatureCollection") = false)
    (hfe : pyEq ((dictGet bd "type").getD .null) (.str "Feature") = false) :
    compute_diff_docs bf cf bd cd =
      .error (.unsupportedType ((dictGet bd "type").getD .null)) := by
  unfold compute_diff_docs
  simp [hbc, hfc, hfe]

/-! ## Claim C8 -/

/-- C8: `compute_diff` fails with `TypeMismatch` whenever the two loaded
top-level `type` discriminators of the two documents differ (the mismatch check runs
before the supported-type dispatch, so FeatureCollection vs Feature is a
`TypeMismatch`, not `UnsupportedType`); with equal discriminators, a shared
type that is neither FeatureCollection nor Feature fails with
`UnsupportedType`; a FeatureCollection contributes its feature list and a
single Feature contributes the one-element list holding the document. -/
theorem compute_diff_type_dispatch (bf cf : String) (bd cd : Dict) :
    (pyEq ((dictGet bd "type").getD .null) ((dictGet cd "type").getD .null) = false →
      compute_diff_docs bf cf bd cd =
        .error (.typeMismatch ((dictGet bd "type").getD .null)
          ((dictGet cd "type").getD .null))) ∧
    (pyEq ((dictGet bd "type").getD .null) ((dictGet cd "type").getD .null) = true →
      pyEq ((dictGet bd "type").getD .null) (.str "FeatureCollection") = false →
      pyEq ((dictGet bd "type").getD .null) (.str "Feature") = false →
      compute_diff_docs bf cf bd cd =
        .error (.unsupportedType ((dictGet bd "type").getD .null))) ∧
    (pyEq ((dictGet bd "type").getD .null) ((dictGet cd "type").getD .null) = true →
      pyEq ((dictGet bd "type").getD .null) (.str "FeatureCollection") = true →
      compute_diff_docs bf cf bd cd =
        .ok (buildDiffResult bf cf ((dictGet bd "type").getD .null)
          (featuresOf bd) (featuresOf cd))) ∧
    (pyEq ((dictGet bd "type").getD .null) ((dictGet cd "type").getD .null) = true →
      pyEq ((dictGet bd "type").getD .null) (.str "Feature") = true →
      compute_diff_docs bf cf bd cd =
        .ok (buildDiffResult bf cf ((dictGet bd "type").getD .null) [bd] [cd])) :=
  ⟨compute_diff_docs_mismatch bf cf bd cd,
   fun hbc hfc hfe => compute_diff_docs_unsupported bf cf bd cd hbc hfc hfe,
   fun hbc hfc => compute_diff_docs_fc bf cf bd cd hbc hfc,
   fun hbc hfe => compute_diff_docs_feature bf cf bd cd hbc hfe⟩

/-- Witness: base `type="FeatureCollection"` vs compare `type="Feature"`
fails with `TypeMismatch` (not `UnsupportedType`). -/
theorem compute_diff_type_dispatch_witness :
    compute_diff_docs "a.geojson" "b.geojson"
      [("type", JVal.str "FeatureCollection"), ("features", JVal.arr [])]
      [("type", JVal.str "Feature")] =
      .error (.typeMismatch (.str "FeatureCollection") (.str "Feature")) :=
  (compute_diff_type_dispatch "a.geojson" "b.geojson"
    [("type", JVal.str "FeatureCollection"), ("features", JVal.arr [])]
    [("type", JVal.str "Feature")]).1 (by decide)

/-! ## Claim C10 -/

theorem compare_features_base_nil (c : List Dict) :
    (compare_features [] c).removed = [] ∧ (compare_features [] c).modified = [] ∧
      (compare_features [] c).unchanged = [] := by
  refine ⟨rfl, ?_, ?_⟩ <;> rfl

theorem commonPairs_nil_right (b : List Dict) : commonPairs b [] = [] := by
  unfold commonPairs
  have : ∀ p ∈ buildMap b,
      (dictGet (buildMap []) p.1).map (fun cf => (p.1, p.2, cf)) =
        (none : Option (String × Dict × Dict)) := by
    intro p hp
    rfl
  rw [List.filterMap_congr this]
  simp

theorem compare_features_comp_nil (b : List Dict) :
    (compare_features b []).added = [] ∧ (compare_features b []).modified = [] ∧
      (compare_features b []).unchanged = [] := by
  refine ⟨rfl, ?_, ?_⟩ <;>
    (show (commonPairs b []).filterMap _ = []; rw [commonPairs_nil_right]; rfl)

/-- C10: with both documents declaring `type="FeatureCollection"`,
`compute_diff` succeeds even when the `features` key is missing from one or
both documents; a missing `features` list is treated as the empty list,
contributing total count 0 and no added/removed/modified/unchanged entries
from that side. -/
theorem compute_diff_missing_features (bf cf : String) (bd cd : Dict)
    (hbt : dictGet bd "type" = some (.str "FeatureCollection"))
    (hct : dictGet cd "type" = some (.str "FeatureCollection")) :
    compute_diff_docs bf cf bd cd =
      .ok (buildDiffResult bf cf (.str "FeatureCollection")
        (featuresOf bd) (featuresOf cd)) ∧
    (dictGet bd "features" = none →
      featuresOf bd = [] ∧
      (compare_features (featuresOf bd) (featuresOf cd)).removed = [] ∧
      (compare_features (featuresOf bd) (featuresOf cd)).modified = [] ∧
      (compare_features (featuresOf bd) (featuresOf cd)).unchanged = []) ∧
    (dictGet cd "features" = none →
      featuresOf cd = [] ∧
      (compare_features (featuresOf bd) (featuresOf cd)).added = [] ∧
      (compare_features (featuresOf bd) (featuresOf cd)).modified = [] ∧
      (compare_features (featuresOf bd) (featuresOf cd)).unchanged = []) := by
  refine ⟨?_, ?_, ?_⟩
  · have h := compute_diff_docs_fc bf cf bd cd
      (by rw [hbt, hct]; rfl) (by rw [hbt]; rfl)
    rw [hbt] at h
    exact h
  · intro hmiss
    have hnil : featuresOf bd = [] := by unfold featuresOf; rw [hmiss]
    refine ⟨hnil, ?_⟩
    rw [hnil]
    exact compare_features_base_nil (featuresOf cd)
  · intro hmiss
    have hnil : featuresOf cd = [] := by unfold featuresOf; rw [hmiss]
    refine ⟨hnil, ?_⟩
    rw [hnil]
    exact compare_features_comp_nil (featuresOf bd)

/-- Witness: two FeatureCollections, both lacking the `features` key,
diff successfully with empty category lists. -/
theorem compute_diff_missing_features_witness :
    compute_diff_docs "a.geojson" "b.geojson"
      [("type", JVal.str "FeatureCollection")]
      [("type", JVal.str "FeatureCollection")] =
      .ok (buildDiffResult "a.geojson" "b.geojson" (.str "FeatureCollection")
        (featuresOf [("type", JVal.str "FeatureCollection")])
        (featuresOf [("type", JVal.str "FeatureCollection")])) ∧
    featuresOf [("type", JVal.str "FeatureCollection")] = [] :=
  ⟨(compute_diff_missing_features "a.geojson" "b.geojson"
      [("type", JVal.str "FeatureCollection")]
      [("type", JVal.str "FeatureCollection")] rfl rfl).1,
    ((compute_diff_missing_features "a.geojson" "b.geojson"
      [("type", JVal.str "FeatureCollection")]
      [("type", JVal.str "FeatureCollection")] rfl rfl).2.1 rfl).1⟩

/-! ## Claim C4 -/

theorem pyEq_str_left_iff (s : String) (t : JVal) :
    pyEq (.str s) t = true ↔ t = .str s := by
  cases t with
  | str x =>
    rw [show pyEq (.str s) (.str x) = (s == x) from rfl]
    constructor
    · intro h
      rw [beq_iff_eq.mp h]
    · intro h
      exact beq_iff_eq.mpr (JVal.str.inj h).symm
  | null => simp [show pyEq (.str s) .null = false from rfl]
  | bool x => simp [show pyEq (.str s) (.bool x) = false from rfl]
  | num x => simp [show pyEq (.str s) (.num x) = false from rfl]
  | arr xs => simp [show pyEq (.str s) (.arr xs) = false from rfl]
  | obj xs => simp [show pyEq (.str s) (.obj xs) = false from rfl]

theorem docFeatureList_fc (d : Dict)
    (h : (dictGet d "type").getD .null = .str "FeatureCollection") :
    docFeatureList d = featuresOf d := by
  unfold docFeatureList
  cases hg : dictGet d "type" with
  | none => rw [hg] at h; simp at h
  | some t =>
    rw [hg] at h
    simp only [Option.getD] at h
    subst h
    rfl

theorem docFeatureList_feature (d : Dict)
    (h : (dictGet d "type").getD .null = .str "Feature") :
    docFeatureList d = [d] := by
  unfold docFeatureList
  cases hg : dictGet d "type" with
  | none => rfl
  | some t =>
    rw [hg] at h
    simp only [Option.getD] at h
    subst h
    rfl

theorem compute_diff_docs_ok_inv (bf cf : String) (bd cd : Dict) (r : Dict)
    (h : compute_diff_docs bf cf bd cd = .ok r) :
    r = buildDiffResult bf cf ((dictGet bd "type").getD .null)
      (docFeatureList bd) (docFeatureList cd) := by
  by_cases hbc : pyEq ((dictGet bd "type").getD .null)
      ((dictGet cd "type").getD .null) = true
  · by_cases hfc : pyEq ((dictGet bd "type").getD .null)
        (.str "FeatureCollection") = true
    · rw [compute_diff_docs_fc bf cf bd cd hbc hfc] at h
      have hbt := (pyEq_str_iff _ _).mp hfc
      have hct : (dictGet cd "type").getD .null = .str "FeatureCollection" := by
        rw [hbt] at hbc
        exact (pyEq_str_left_iff _ _).mp hbc
      rw [docFeatureList_fc bd hbt, docFeatureList_fc cd hct]
      exact (Except.ok.inj h).symm
    · by_cases hfe : pyEq ((dictGet bd "type").getD .null) (.str "Feature") = true
      · rw [compute_diff_docs_feature bf cf bd cd hbc hfe] at h
        have hbt := (pyEq_str_iff _ _).mp hfe
        have hct : (dictGet cd "type").getD .null = .str "Feature" := by
          rw [hbt] at hbc
          exact (pyEq_str_left_iff _ _).mp hbc
        rw [docFeatureList_feature bd hbt, docFeatureList_feature cd hct]
        exact (Except.ok.inj h).symm
      · rw [compute_diff_docs_unsupported bf cf bd cd hbc
          (Bool.not_eq_true _ ▸ hfc) (Bool.not_eq_true _ ▸ hfe)] at h
        exact Except.noConfusion h
  · rw [compute_diff_docs_mismatch bf cf bd cd (Bool.not_eq_true _ ▸ hbc)] at h
    exact Except.noConfusion h

theorem buildDiffResult_has_changes (bf cf : String) (t : JVal) (bfs cfs : List Dict) :
    dictGet (buildDiffResult bf cf t bfs cfs) "has_changes" =
      some (.bool (!(compare_features bfs cfs).added.isEmpty ||
        !(compare_features bfs cfs).removed.isEmpty ||
        !(compare_features bfs cfs).modified.isEmpty)) := rfl

theorem buildDiffResult_summary (bf cf : String) (t : JVal) (bfs cfs : List Dict) :
    dictGet (buildDiffResult bf cf t bfs cfs) "summary" =
      some (.obj
        [("added_count", .num (compare_features bfs cfs).added.length),
         ("removed_count", .num (compare_features bfs cfs).removed.length),
         ("modified_count", .num (compare_features bfs cfs).modified.length),
         ("unchanged_count", .num (compare_features bfs cfs).unchanged.length),
         ("total_base", .num bfs.length),
         ("total_compare", .num cfs.length)]) := rfl

theorem compare_features_self_zero (l : List Dict) (hwf : l.all wfFeature = true) :
    (compare_features l l).added = [] ∧ (compare_features l l).removed = [] ∧
      (compare_features l l).modified = [] := by
  refine ⟨?_, ?_, ?_⟩
  · show ((buildMap l).filter
      (fun p => !((dictKeys (buildMap l)).contains p.1))).map Prod.snd = []
    rw [List.filter_eq_nil_iff.mpr ?_]
    · rfl
    · intro p hp
      have hm : p.1 ∈ dictKeys (buildMap l) := List.mem_map.mpr ⟨p, hp, rfl⟩
      simp [hm]
  · show ((buildMap l).filter
      (fun p => !((dictKeys (buildMap l)).contains p.1))).map Prod.snd = []
    rw [List.filter_eq_nil_iff.mpr ?_]
    · rfl
    · intro p hp
      have hm : p.1 ∈ dictKeys (buildMap l) := List.mem_map.mpr ⟨p, hp, rfl⟩
      simp [hm]
  · show (commonPairs l l).filterMap
      (fun t => if pyDictEq t.2.1 t.2.2 then none
        else some (ModEntry.mk t.1 t.2.1 t.2.2)) = []
    apply List.filterMap_eq_nil_iff.mpr
    intro t ht
    obtain ⟨p, hp, hF⟩ := List.mem_filterMap.mp ht
    cases hcf : dictGet (buildMap l) p.1 with
    | none => rw [hcf] at hF; simp at hF
    | some cf =>
      rw [hcf] at hF
      have hbf : dictGet (buildMap l) p.1 = some p.2 :=
        mem_dictGet _ _ _ (buildMap_keys_nodup l) (by simpa using hp)
      have hcp : cf = p.2 := by
        rw [hbf] at hcf
        exact (Option.some.inj hcf).symm
      have hwff : wfFeature p.2 = true := by
        have hmem : (p.1, p.2) ∈ buildMap l := by simpa using hp
        exact List.all_eq_true.mp hwf _ (buildMap_values_mem l p.1 p.2 hmem)
      have ht2 := Option.some.inj hF
      subst ht2
      show (if pyDictEq p.2 cf then none
        else some (ModEntry.mk p.1 p.2 cf)) = none
      rw [hcp]
      rw [if_pos (pyDictEq_refl p.2 hwff)]

theorem not_isEmpty_or3_iff {α β γ : Type} (a : List α) (b : List β) (c : List γ) :
    (!a.isEmpty || !b.isEmpty || !c.isEmpty) = true ↔
      (a ≠ [] ∨ b ≠ [] ∨ c ≠ []) := by
  cases a <;> cases b <;> cases c <;> simp

/-- C4: for every pair of documents accepted by `compute_diff`,
`has_changes` is true iff `added`, `removed` or `modified` is non-empty;
the six summary counters equal the four category lengths plus the two
normalized input feature-list lengths; and comparing a document to a
structurally identical copy of itself (with duplicate-free keys, as
`json.load` guarantees) yields `has_changes = false` and empty
added/removed/modified — including the degenerate case of two empty
collections. -/
theorem compute_diff_has_changes_spec (bf cf : String) (bd cd : Dict) (r : Dict)
    (h : compute_diff_docs bf cf bd cd = .ok r) :
    dictGet r "has_changes" = some (.bool
      (!(compare_features (docFeatureList bd) (docFeatureList cd)).added.isEmpty ||
       !(compare_features (docFeatureList bd) (docFeatureList cd)).removed.isEmpty ||
       !(compare_features (docFeatureList bd) (docFeatureList cd)).modified.isEmpty)) ∧
    ((!(compare_features (docFeatureList bd) (docFeatureList cd)).added.isEmpty ||
      !(compare_features (docFeatureList bd) (docFeatureList cd)).removed.isEmpty ||
      !(compare_features (docFeatureList bd) (docFeatureList cd)).modified.isEmpty) = true ↔
      ((compare_features (docFeatureList bd) (docFeatureList cd)).added ≠ [] ∨
       (compare_features (docFeatureList bd) (docFeatureList cd)).removed ≠ [] ∨
       (compare_features (docFeatureList bd) (docFeatureList cd)).modified ≠ [])) ∧
    dictGet r "summary" = some (.obj
      [("added_count", .num (compare_features (docFeatureList bd)
          (docFeatureList cd)).added.length),
       ("removed_count", .num (compare_features (docFeatureList bd)
          (docFeatureList cd)).removed.length),
       ("modified_count", .num (compare_features (docFeatureList bd)
          (docFeatureList cd)).modified.length),
       ("unchanged_count", .num (compare_features (docFeatureList bd)
          (docFeatureList cd)).unchanged.length),
       ("total_base", .num (docFeatureList bd).length),
       ("total_compare", .num (docFeatureList cd).length)]) ∧
    (cd = bd → (docFeatureList bd).all wfFeature = true →
      dictGet r "has_changes" = some (.bool false) ∧
      (compare_features (docFeatureList bd) (docFeatureList cd)).added = [] ∧
      (compare_features (docFeatureList bd) (docFeatureList cd)).removed = [] ∧
      (compare_features (docFeatureList bd) (docFeatureList cd)).modified = []) := by
  have hr := compute_diff_docs_ok_inv bf cf bd cd r h
  subst hr
  refine ⟨buildDiffResult_has_changes bf cf _ _ _, ?_, buildDiffResult_summary bf cf _ _ _, ?_⟩
  · exact not_isEmpty_or3_iff _ _ _
  · intro hcd hwf
    subst hcd
    obtain ⟨ha, hre, hm⟩ := compare_features_self_zero (docFeatureList cd) hwf
    refine ⟨?_, ha, hre, hm⟩
    rw [buildDiffResult_has_changes]
    rw [ha, hre, hm]
    rfl

def selfCompareDoc : Dict :=
  [("type", JVal.str "FeatureCollection"),
   ("features", JVal.arr [JVal.obj
     [("type", JVal.str "Feature"), ("id", JVal.str "point1"),
      ("properties", JVal.obj [("name", JVal.str "Origin")])]])]

/-- Witness: comparing a document to an identical copy of itself yields
`has_changes = false` and empty added/removed/modified. -/
theorem compute_diff_has_changes_witness :
    dictGet (buildDiffResult "a.geojson" "b.geojson" (.str "FeatureCollection")
      (docFeatureList selfCompareDoc) (docFeatureList selfCompareDoc))
      "has_changes" = some (.bool false) ∧
    (compare_features (docFeatureList selfCompareDoc)
      (docFeatureList selfCompareDoc)).added = [] ∧
    (compare_features (docFeatureList selfCompareDoc)
      (docFeatureList selfCompareDoc)).removed = [] ∧
    (compare_features (docFeatureList selfCompareDoc)
      (docFeatureList selfCompareDoc)).modified = [] :=
  (compute_diff_has_changes_spec "a.geojson" "b.geojson" selfCompareDoc selfCompareDoc
    (buildDiffResult "a.geojson" "b.geojson" (.str "FeatureCollection")
      (docFeatureList selfCompareDoc) (docFeatureList selfCompareDoc)) rfl).2.2.2
    rfl (by decide)

/-! ## Formatter rendering lemmas -/

/-- A feature whose `properties`, when present, is a mapping (RFC 7946
also allows `null`, which the tagging code cannot handle). -/
def propsOk (f : Dict) : Bool :=
  match dictGet f "properties" with
  | none => true
  | some (.obj _) => true
  | some _ => false

/-- The rendered copy produced by the tagging (`feature.copy()` with the
status written through `setdefault`). -/
def renderTag (status : String) (f : Dict) : JVal :=
  match dictGet f "properties" with
  | some (.obj props) =>
    .obj (dictSet f "properties" (.obj (dictSet props "_geodiff_status" (.str status))))
  | _ => .obj (dictSet f "properties" (.obj [("_geodiff_status", .str status)]))

/-- The post-state of the original feature: mutated in place when it
already had a `properties` mapping (shared through the shallow copy),
untouched when `properties` was absent. -/
def postTag (status : String) (f : Dict) : JVal :=
  match dictGet f "properties" with
  | some (.obj props) =>
    .obj (dictSet f "properties" (.obj (dictSet props "_geodiff_status" (.str status))))
  | _ => .obj f

/-- The `_geodiff_status` value of a rendered feature. -/
def getStatus (v : JVal) : Option JVal :=
  match v with
  | .obj f =>
    match dictGet f "properties" with
    | some (.obj props) => dictGet props "_geodiff_status"
    | _ => none
  | _ => none

def statusIs (s : String) (v : JVal) : Bool :=
  match getStatus v with
  | some (.str x) => x == s
  | _ => false

theorem tagFeature_ok (status : String) (f : Dict) (h : propsOk f = true) :
    tagFeature status (.obj f) = .ok (renderTag status f, postTag status f) := by
  unfold tagFeature renderTag postTag
  cases hp : dictGet f "properties" with
  | none => simp [hp]
  | some v =>
    cases v with
    | obj props => simp [hp]
    | null => unfold propsOk at h; simp [hp] at h
    | bool x => unfold propsOk at h; simp [hp] at h
    | num x => unfold propsOk at h; simp [hp] at h
    | str x => unfold propsOk at h; simp [hp] at h
    | arr xs => unfold propsOk at h; simp [hp] at h

theorem tagAll_ok (status : String) (fs : List Dict)
    (h : ∀ f ∈ fs, propsOk f = true) :
    tagAll status (fs.map .obj) =
      .ok (fs.map (renderTag status), fs.map (postTag status)) := by
  induction fs with
  | nil => rfl
  | cons f rest ih =>
    simp only [List.map_cons]
    rw [show tagAll status (JVal.obj f :: rest.map JVal.obj) =
      (tagFeature status (.obj f)).bind (fun rp =>
        (tagAll status (rest.map JVal.obj)).bind (fun rsps =>
          .ok (rp.1 :: rsps.1, rp.2 :: rsps.2))) from rfl]
    rw [tagFeature_ok status f (h f (List.mem_cons_self _ _)),
      ih (fun g hg => h g (List.mem_cons_of_mem _ hg))]
    rfl

/-- The post-state of one `modified` entry: its `compare` value replaced by
the mutated compare-side feature. -/
def postMod (m : ModEntry) : JVal :=
  .obj [("id", .str m.id), ("base", .obj m.base),
    ("compare", postTag "modified" m.compare)]

theorem tagAllMod_ok (ms : List ModEntry)
    (h : ∀ m ∈ ms, propsOk m.compare = true) :
    tagAllMod (ms.map modEntryToJVal) =
      .ok (ms.map (fun m => renderTag "modified" m.compare), ms.map postMod) := by
  induction ms with
  | nil => rfl
  | cons m rest ih =>
    simp only [List.map_cons]
    rw [show tagAllMod (modEntryToJVal m :: rest.map modEntryToJVal) =
      (tagFeature "modified" (.obj m.compare)).bind (fun rp =>
        (tagAllMod (rest.map modEntryToJVal)).bind (fun rsps =>
          .ok (rp.1 :: rsps.1,
            .obj [("id", .str m.id), ("base", .obj m.base), ("compare", rp.2)]
              :: rsps.2))) from rfl]
    rw [tagFeature_ok "modified" m.compare (h m (List.mem_cons_self _ _)),
      ih (fun g hg => h g (List.mem_cons_of_mem _ hg))]
    rfl

theorem getStatus_renderTag (status : String) (f : Dict) (h : propsOk f = true) :
    getStatus (renderTag status f) = some (.str status) := by
  unfold getStatus renderTag
  cases hp : dictGet f "properties" with
  | none =>
    show (match dictGet (dictSet f "properties"
        (JVal.obj [("_geodiff_status", JVal.str status)])) "properties" with
      | some (.obj props) => dictGet props "_geodiff_status"
      | _ => none) = some (.str status)
    rw [dictGet_dictSet_self]
    rfl
  | some v =>
    cases v with
    | obj props =>
      show (match dictGet (dictSet f "properties"
          (JVal.obj (dictSet props "_geodiff_status" (JVal.str status)))) "properties" with
        | some (.obj props2) => dictGet props2 "_geodiff_status"
        | _ => none) = some (.str status)
      rw [dictGet_dictSet_self]
      show dictGet (dictSet props "_geodiff_status" (JVal.str status))
        "_geodiff_status" = _
      rw [dictGet_dictSet_self]
    | null => unfold propsOk at h; simp [hp] at h
    | bool x => unfold propsOk at h; simp [hp] at h
    | num x => unfold propsOk at h; simp [hp] at h
    | str x => unfold propsOk at h; simp [hp] at h
    | arr xs => unfold propsOk at h; simp [hp] at h

theorem statusIs_renderTag (s status : String) (f : Dict) (h : propsOk f = true) :
    statusIs s (renderTag status f) = (status == s) := by
  unfold statusIs
  rw [getStatus_renderTag status f h]

/-- The features array of the geojson rendering: added, then removed, then
the compare-side of each modified pair, each tagged. -/
def geojsonFeatures (comp : ComparisonResult) : List JVal :=
  comp.added.map (renderTag "added") ++ comp.removed.map (renderTag "removed") ++
    comp.modified.map (fun m => renderTag "modified" m.compare)

/-- The post-state of the `changes` payload after the geojson rendering. -/
def taggedChanges (comp : ComparisonResult) : Dict :=
  [("added", .arr (comp.added.map (postTag "added"))),
   ("removed", .arr (comp.removed.map (postTag "removed"))),
   ("modified", .arr (comp.modified.map postMod)),
   ("unchanged", .arr (comp.unchanged.map .obj))]

def postDiffResult (bf cf : String) (t : JVal) (bfs cfs : List Dict) : Dict :=
  dictSet (buildDiffResult bf cf t bfs cfs) "changes"
    (.obj (taggedChanges (compare_features bfs cfs)))

theorem format_geojson_obj_ok (bf cf : String) (t : JVal) (bfs cfs : List Dict)
    (hA : ∀ f ∈ (compare_features bfs cfs).added, propsOk f = true)
    (hR : ∀ f ∈ (compare_features bfs cfs).removed, propsOk f = true)
    (hM : ∀ m ∈ (compare_features bfs cfs).modified, propsOk m.compare = true) :
    format_geojson_obj (buildDiffResult bf cf t bfs cfs) =
      .ok (.obj
        [("type", .str "FeatureCollection"),
         ("features", .arr (geojsonFeatures (compare_features bfs cfs))),
         ("properties", .obj [("geodiff_summary", .obj
           [("added_count", .num (compare_features bfs cfs).added.length),
            ("removed_count", .num (compare_features bfs cfs).removed.length),
            ("modified_count", .num (compare_features bfs cfs).modified.length),
            ("unchanged_count", .num (compare_features bfs cfs).unchanged.length),
            ("total_base", .num bfs.length),
            ("total_compare", .num cfs.length)])])],
        postDiffResult bf cf t bfs cfs) := by
  show (Except.bind (tagAll "added" ((compare_features bfs cfs).added.map JVal.obj))
    (fun ap => Except.bind (tagAll "removed" ((compare_features bfs cfs).removed.map JVal.obj))
      (fun rp => Except.bind (tagAllMod ((compare_features bfs cfs).modified.map modEntryToJVal))
        (fun mp => (Except.ok (JVal.obj
          [("type", JVal.str "FeatureCollection"),
           ("features", JVal.arr (ap.1 ++ rp.1 ++ mp.1)),
           ("properties", JVal.obj [("geodiff_summary", JVal.obj
             [("added_count", JVal.num (compare_features bfs cfs).added.length),
              ("removed_count", JVal.num (compare_features bfs cfs).removed.length),
              ("modified_count", JVal.num (compare_features bfs cfs).modified.length),
              ("unchanged_count", JVal.num (compare_features bfs cfs).unchanged.length),
              ("total_base", JVal.num bfs.length),
              ("total_compare", JVal.num cfs.length)])])],
          dictSet (buildDiffResult bf cf t bfs cfs) "changes"
            (JVal.obj (dictSet (dictSet (dictSet
              [("added", JVal.arr ((compare_features bfs cfs).added.map JVal.obj)),
               ("removed", JVal.arr ((compare_features bfs cfs).removed.map JVal.obj)),
               ("modified", JVal.arr ((compare_features bfs cfs).modified.map modEntryToJVal)),
               ("unchanged", JVal.arr ((compare_features bfs cfs).unchanged.map JVal.obj))]
              "added" (JVal.arr ap.2)) "removed" (JVal.arr rp.2)) "modified" (JVal.arr mp.2)))) : Except PyError (JVal × Dict)))))) = _
  rw [tagAll_ok "added" (compare_features bfs cfs).added hA,
    tagAll_ok "removed" (compare_features bfs cfs).removed hR,
    tagAllMod_ok (compare_features bfs cfs).modified hM]
  rfl

theorem format_output_geojson_ok (bf cf : String) (t : JVal) (bfs cfs : List Dict)
    (hA : ∀ f ∈ (compare_features bfs cfs).added, propsOk f = true)
    (hR : ∀ f ∈ (compare_features bfs cfs).removed, propsOk f = true)
    (hM : ∀ m ∈ (compare_features bfs cfs).modified, propsOk m.compare = true) :
    format_output (buildDiffResult bf cf t bfs cfs) "geojson" =
      .ok (jsonDumps (.obj
        [("type", .str "FeatureCollection"),
         ("features", .arr (geojsonFeatures (compare_features bfs cfs))),
         ("properties", .obj [("geodiff_summary", .obj
           [("added_count", .num (compare_features bfs cfs).added.length),
            ("removed_count", .num (compare_features bfs cfs).removed.length),
            ("modified_count", .num (compare_features bfs cfs).modified.length),
            ("unchanged_count", .num (compare_features bfs cfs).unchanged.length),
            ("total_base", .num bfs.length),
            ("total_compare", .num cfs.length)])])]),
        postDiffResult bf cf t bfs cfs) := by
  show (Except.bind (format_geojson_obj (buildDiffResult bf cf t bfs cfs))
    (fun op => (Except.ok (jsonDumps op.1, op.2) : Except PyError (String × Dict)))) = _
  rw [format_geojson_obj_ok bf cf t bfs cfs hA hR hM]
  rfl

/-- C7 (amended): for every DiffResult from the feature-diff path whose
rendered features (added, removed, and the compare side of each modified
pair) carry an absent-or-mapping `properties` member, the geojson mode
emits a FeatureCollection whose features array is exactly: every added
feature tagged `"added"`, then every removed feature tagged `"removed"`,
then the compare-side value of every modified pair tagged `"modified"`; no
feature carries any other status, unchanged features never appear, the
count of `"modified"`-tagged features equals `len(modified)`, and a
top-level `properties.geodiff_summary` equals the six-counter
summary of the result.  (Without the properties proviso the mode fails on a feature with
a non-mapping `properties` such as `null`; see the counterexample.) -/
theorem format_geojson_renders_deltas (bf cf : String) (t : JVal) (bfs cfs : List Dict)
    (hA : ∀ f ∈ (compare_features bfs cfs).added, propsOk f = true)
    (hR : ∀ f ∈ (compare_features bfs cfs).removed, propsOk f = true)
    (hM : ∀ m ∈ (compare_features bfs cfs).modified, propsOk m.compare = true) :
    format_geojson_obj (buildDiffResult bf cf t bfs cfs) =
      .ok (.obj
        [("type", .str "FeatureCollection"),
         ("features", .arr (geojsonFeatures (compare_features bfs cfs))),
         ("properties", .obj [("geodiff_summary", .obj
           [("added_count", .num (compare_features bfs cfs).added.length),
            ("removed_count", .num (compare_features bfs cfs).removed.length),
            ("modified_count", .num (compare_features bfs cfs).modified.length),
            ("unchanged_count", .num (compare_features bfs cfs).unchanged.length),
            ("total_base", .num bfs.length),
            ("total_compare", .num cfs.length)])])],
        postDiffResult bf cf t bfs cfs) ∧
    (∀ v ∈ geojsonFeatures (compare_features bfs cfs),
      statusIs "added" v = true ∨ statusIs "removed" v = true ∨
        statusIs "modified" v = true) ∧
    ((geojsonFeatures (compare_features bfs cfs)).filter (statusIs "modified")).length =
      (compare_features bfs cfs).modified.length ∧
    (geojsonFeatures (compare_features bfs cfs)).length =
      (compare_features bfs cfs).added.length +
        (compare_features bfs cfs).removed.length +
        (compare_features bfs cfs).modified.length := by
  refine ⟨format_geojson_obj_ok bf cf t bfs cfs hA hR hM, ?_, ?_, ?_⟩
  · intro v hv
    unfold geojsonFeatures at hv
    rcases List.mem_append.mp hv with hv | hv
    · rcases List.mem_append.mp hv with hv | hv
      · obtain ⟨f, hf, he⟩ := List.mem_map.mp hv
        exact Or.inl (he ▸ by rw [statusIs_renderTag _ _ _ (hA f hf)]; rfl)
      · obtain ⟨f, hf, he⟩ := List.mem_map.mp hv
        exact Or.inr (Or.inl (he ▸ by rw [statusIs_renderTag _ _ _ (hR f hf)]; rfl))
    · obtain ⟨m, hm, he⟩ := List.mem_map.mp hv
      exact Or.inr (Or.inr (he ▸ by rw [statusIs_renderTag _ _ _ (hM m hm)]; rfl))
  · unfold geojsonFeatures
    rw [List.filter_append, List.filter_append]
    rw [List.filter_eq_nil_iff.mpr ?_, List.filter_eq_nil_iff.mpr ?_,
      List.filter_eq_self.mpr ?_]
    · simp
    · intro v hv
      obtain ⟨m, hm, he⟩ := List.mem_map.mp hv
      rw [← he, statusIs_renderTag _ _ _ (hM m hm)]
      rfl
    · intro v hv
      obtain ⟨f, hf, he⟩ := List.mem_map.mp hv
      rw [← he, statusIs_renderTag _ _ _ (hR f hf)]
      simp
    · intro v hv
      obtain ⟨f, hf, he⟩ := List.mem_map.mp hv
      rw [← he, statusIs_renderTag _ _ _ (hA f hf)]
      simp
  · unfold geojsonFeatures
    simp [List.length_append]
    omega

def emptyFCDoc : Dict :=
  [("type", JVal.str "FeatureCollection"), ("features", JVal.arr [])]

def nullPropsCompare : Dict :=
  [("type", JVal.str "FeatureCollection"),
   ("features", JVal.arr [JVal.obj
     [("type", JVal.str "Feature"), ("id", JVal.num 2),
      ("properties", JVal.null)]])]

/-- C7 counterexample: a feature-diff DiffResult whose added feature has
`"properties": null` (valid GeoJSON) makes the geojson mode fail with a
type error instead of emitting a FeatureCollection, so the unamended claim
is false for this DiffResult. -/
theorem format_geojson_null_properties_fails :
    compute_diff_docs "base.geojson" "compare.geojson" emptyFCDoc nullPropsCompare =
      .ok (buildDiffResult "base.geojson" "compare.geojson" (.str "FeatureCollection")
        (featuresOf emptyFCDoc) (featuresOf nullPropsCompare)) ∧
    format_output (buildDiffResult "base.geojson" "compare.geojson"
      (.str "FeatureCollection") (featuresOf emptyFCDoc) (featuresOf nullPropsCompare))
      "geojson" = .error (.typeError "item assignment on non-mapping properties") :=
  ⟨rfl, rfl⟩

def propsCompareDoc : Dict :=
  [("type", JVal.str "FeatureCollection"),
   ("features", JVal.arr [JVal.obj
     [("type", JVal.str "Feature"), ("id", JVal.num 1),
      ("properties", JVal.obj [("name", JVal.str "x")])]])]

/-- Witness: the amended geojson-rendering theorem applied at a concrete
one-added-feature diff. -/
theorem format_geojson_renders_deltas_witness :
    ((geojsonFeatures (compare_features (featuresOf emptyFCDoc)
      (featuresOf propsCompareDoc))).filter (statusIs "modified")).length =
    (compare_features (featuresOf emptyFCDoc)
      (featuresOf propsCompareDoc)).modified.length :=
  (format_geojson_renders_deltas "base.geojson" "compare.geojson"
    (.str "FeatureCollection") (featuresOf emptyFCDoc) (featuresOf propsCompareDoc)
    (by decide) (by decide) (by decide)).2.2.1

/-! ## Claim C2 -/

/-- C2 (code bug evidence): on the tabular-container DiffResult built by
src/main.py for a new file (summary keyed
`total_changes/inserts/updates/deletes`, changes payload `{"geodiff": []}`),
`format_output` raises KeyError "added_count" in summary mode and
KeyError "added" in geojson mode; only json mode returns a string, so the
Formatter does not handle the tabular summary shape. -/
theorem format_output_tabular_shape :
    format_output (newFileDiffResult "data.geojson") "summary" =
      .error (.keyError "added_count") ∧
    format_output (newFileDiffResult "data.geojson") "geojson" =
      .error (.keyError "added") ∧
    ∃ s, format_output (newFileDiffResult "data.geojson") "json" =
      .ok (s, newFileDiffResult "data.geojson") :=
  ⟨rfl, rfl, ⟨_, rfl⟩⟩

/-! ## Claim C3 -/

/-- The `_geodiff_status` value carried by the properties of the first
added feature reachable from a DiffResult dict. -/
def addedStatusProbe (r : Dict) : Option String :=
  match dictGet r "changes" with
  | some (.obj ch) =>
    match dictGet ch "added" with
    | some (.arr (.obj f :: _)) =>
      match dictGet f "properties" with
      | some (.obj props) =>
        match dictGet props "_geodiff_status" with
        | some (.str s) => some s
        | _ => none
      | _ => none
    | _ => none
  | _ => none

/-- C3 (code bug evidence): the geojson mode mutates its argument: the
shallow `feature.copy()` shares the `properties` mapping with the input
feature, so the `_geodiff_status` tag is written into the input
DiffResult.  At a concrete feature-diff result the post-state of the
argument carries the tag the input did not have, hence differs from the
input. -/
theorem format_output_geojson_mutates_input :
    compute_diff_docs "base.geojson" "compare.geojson" emptyFCDoc propsCompareDoc =
      .ok (buildDiffResult "base.geojson" "compare.geojson" (.str "FeatureCollection")
        (featuresOf emptyFCDoc) (featuresOf propsCompareDoc)) ∧
    addedStatusProbe (buildDiffResult "base.geojson" "compare.geojson"
      (.str "FeatureCollection") (featuresOf emptyFCDoc)
      (featuresOf propsCompareDoc)) = none ∧
    ∃ s post,
      format_output (buildDiffResult "base.geojson" "compare.geojson"
        (.str "FeatureCollection") (featuresOf emptyFCDoc)
        (featuresOf propsCompareDoc)) "geojson" = .ok (s, post) ∧
      addedStatusProbe post = some "added" ∧
      post ≠ buildDiffResult "base.geojson" "compare.geojson"
        (.str "FeatureCollection") (featuresOf emptyFCDoc)
        (featuresOf propsCompareDoc) := by
  refine ⟨rfl, rfl, _, _, rfl, rfl, ?_⟩
  intro h
  exact absurd (congrArg addedStatusProbe h) (by decide)
